import Mathlib

/-!
Verification of the bitmap physical-frame allocator in
`src/memory/src/bitmap_frame_allocator.rs`.

The Rust code is shallowly embedded: machine `usize` words are modelled as
`Nat` (the target is 64-bit, so `BITS_PER_BLOCK = 64` and bitwise negation
is XOR against `USIZE_MAX = 2 ^ 64 - 1`), `u64` arithmetic that can wrap is
taken modulo `U64_MOD = 2 ^ 64`, the statically allocated bitmap is a
function from word index to word value, and the fallible construction
(`max_by_key(..).unwrap()` on a possibly empty memory map) returns an
`Option`.  The `Frame` type, `PAGE_SIZE` and the memory-area records come
from collaborator crates that are not part of this repository and are
modelled from the spec (§3, §6).
-/

/-- Modelled from the spec: the frame / page size constant provided by the
`memory` crate (`super::PAGE_SIZE`), a fixed power of two; the x86 page size
4096 matches the address/frame splits asserted by the repository's tests. -/
def PAGE_SIZE : Nat := 4096

def MAX_MEM_SIZE : Nat := 4294967296

def NUM_OF_FRAMES : Nat := MAX_MEM_SIZE / PAGE_SIZE

/-- `mem::size_of::<usize>() * 8` on the 64-bit target. -/
def BITS_PER_BLOCK : Nat := 64

def ARRAY_SIZE : Nat := NUM_OF_FRAMES / BITS_PER_BLOCK

/-- `core::usize::MAX` on the 64-bit target. -/
def USIZE_MAX : Nat := 2 ^ 64 - 1

/-- Modulus of `u64` arithmetic, used where the Rust code adds or subtracts
`u64` values that may wrap. -/
def U64_MOD : Nat := 2 ^ 64

/-- Modelled from the spec: an opaque, totally ordered integer identifier
for one physical page frame (`super::Frame`). -/
structure Frame where
  number : Nat
deriving DecidableEq

/-- Modelled from the spec: `Frame::containing_address`, floor division of a
physical address by the frame size. -/
def Frame.containing_address (addr : Nat) : Frame :=
  ⟨addr / PAGE_SIZE⟩

/-- Modelled from the spec: `Frame::range_inclusive a b` produces the frames
`a, a+1, …, b` in order, empty when `a > b`. -/
def Frame.range_inclusive (a b : Frame) : List Frame :=
  (List.range' a.number (b.number + 1 - a.number)).map Frame.mk

/-- Modelled from the spec: one record of the multiboot2 memory map
(`{ base_addr : u64, length : u64, type : u32 }`); the allocator never reads
the type field, so it is omitted. -/
structure MemoryArea where
  base_addr : Nat
  length : Nat
deriving DecidableEq

/-- The allocator state: the exclusively borrowed bitmap (word index to word
value) and the cursor fields of `BitmapFrameAllocator`. -/
structure BitmapFrameAllocator where
  bitmap : Nat → Nat
  second_scan : Bool
  next_frame : Frame
  last_frame : Frame

/-- `BitmapFrameAllocator::set_used`. -/
def set_used (a : BitmapFrameAllocator) (index : Nat) (value : Bool) :
    BitmapFrameAllocator :=
  if value then
    let w := a.bitmap (index / BITS_PER_BLOCK) ||| (1 <<< (index % BITS_PER_BLOCK))
    { a with bitmap := Function.update a.bitmap (index / BITS_PER_BLOCK) w }
  else
    let w := a.bitmap (index / BITS_PER_BLOCK) &&& (USIZE_MAX ^^^ (1 <<< (index % BITS_PER_BLOCK)))
    { a with bitmap := Function.update a.bitmap (index / BITS_PER_BLOCK) w }

/-- `BitmapFrameAllocator::frame_is_used`. -/
def frame_is_used (a : BitmapFrameAllocator) (index : Nat) : Bool :=
  (a.bitmap (index / BITS_PER_BLOCK) &&& (1 <<< (index % BITS_PER_BLOCK))) != 0

/-- `BitmapFrameAllocator::block_is_used`. -/
def block_is_used (a : BitmapFrameAllocator) (index : Nat) : Bool :=
  a.bitmap index == USIZE_MAX

/-- `BitmapFrameAllocator::first_frame_in_block`. -/
def first_frame_in_block (block_number : Nat) : Frame :=
  ⟨block_number * BITS_PER_BLOCK⟩

/-- `BitmapFrameAllocator::last_frame_in_block`. -/
def last_frame_in_block (block_number : Nat) : Frame :=
  ⟨block_number * BITS_PER_BLOCK + BITS_PER_BLOCK - 1⟩

/-- `BitmapFrameAllocator::get_block_number`. -/
def get_block_number (frame_number : Nat) : Nat :=
  frame_number / BITS_PER_BLOCK

/-- The `while self.next_frame <= last_frame_in_block(..)` loop inside
`find_free_frame_in_block`, as a recursive function on the state. -/
def find_free_frame_loop (a : BitmapFrameAllocator) (block_number : Nat) :
    Option Frame × BitmapFrameAllocator :=
  if a.next_frame.number ≤ (last_frame_in_block block_number).number then
    if frame_is_used a a.next_frame.number then
      find_free_frame_loop { a with next_frame := ⟨a.next_frame.number + 1⟩ } block_number
    else
      let frame := a.next_frame
      let a2 := set_used a frame.number true
      (some frame, { a2 with next_frame := ⟨frame.number + 1⟩ })
  else
    (none, a)
termination_by (last_frame_in_block block_number).number + 1 - a.next_frame.number
decreasing_by omega

/-- `BitmapFrameAllocator::find_free_frame_in_block`. -/
def find_free_frame_in_block (a : BitmapFrameAllocator) (block_number : Nat) :
    Option Frame × BitmapFrameAllocator :=
  if block_is_used a block_number then
    (none, { a with next_frame := first_frame_in_block (block_number + 1) })
  else
    find_free_frame_loop a block_number

/-- `BitmapFrameAllocator::allocate_frame` (the outer `loop`).  The
recursion terminates because each pass strictly advances `next_frame` and
the wraparound happens at most once; the `decreasing_by` block proves, by
induction on the within-block scan, that a `None` result of
`find_free_frame_in_block` advances the cursor to the next block boundary
while leaving `second_scan` and `last_frame` unchanged. -/
def allocate_frame (a : BitmapFrameAllocator) : Option Frame × BitmapFrameAllocator :=
  if a.next_frame.number ≥ a.last_frame.number then
    if a.second_scan then
      (none, { a with second_scan := false })
    else
      allocate_frame { a with second_scan := true, next_frame := ⟨0⟩ }
  else
    let r := find_free_frame_in_block a (get_block_number a.next_frame.number)
    if r.1.isSome then r else allocate_frame r.2
termination_by
  (if a.second_scan then 0 else a.last_frame.number + 1) +
    (a.last_frame.number - a.next_frame.number)
decreasing_by
· rename_i _h1 h2
  simp only [Bool.not_eq_true] at h2
  simp [h2]
  omega
· rename_i hge hsome
  have key : ∀ (n : Nat) (b : BitmapFrameAllocator) (bn : Nat),
      (last_frame_in_block bn).number + 1 - b.next_frame.number ≤ n →
      (find_free_frame_loop b bn).1 = none →
      (find_free_frame_loop b bn).2.second_scan = b.second_scan ∧
      (find_free_frame_loop b bn).2.last_frame = b.last_frame ∧
      (find_free_frame_loop b bn).2.next_frame.number =
        max b.next_frame.number ((last_frame_in_block bn).number + 1) := by
    intro n
    induction n with
    | zero =>
      intro b bn hn _hnone
      have hgt : ¬ b.next_frame.number ≤ (last_frame_in_block bn).number := by omega
      rw [find_free_frame_loop.eq_def]
      simp only [if_neg hgt]
      exact ⟨trivial, trivial, by omega⟩
    | succ n ih =>
      intro b bn hn hnone
      rw [find_free_frame_loop.eq_def] at hnone ⊢
      by_cases hle : b.next_frame.number ≤ (last_frame_in_block bn).number
      · simp only [if_pos hle] at hnone ⊢
        by_cases hu : frame_is_used b b.next_frame.number = true
        · simp only [if_pos hu] at hnone ⊢
          have hm : (last_frame_in_block bn).number + 1 - (b.next_frame.number + 1) ≤ n := by
            omega
          obtain ⟨t1, t2, t3⟩ := ih { b with next_frame := ⟨b.next_frame.number + 1⟩ } bn hm hnone
          refine ⟨t1, t2, ?_⟩
          simp only at t3
          omega
        · rw [if_neg hu] at hnone
          simp at hnone
      · simp only [if_neg hle]
        exact ⟨trivial, trivial, by omega⟩
  have hnone : (find_free_frame_in_block a (get_block_number a.next_frame.number)).1 = none := by
    rcases h : (find_free_frame_in_block a (get_block_number a.next_frame.number)).1 with _ | f
    · rfl
    · rw [h] at hsome; simp at hsome
  simp only [ge_iff_le, not_le] at hge
  simp only [find_free_frame_in_block] at hnone ⊢
  by_cases hb : block_is_used a (get_block_number a.next_frame.number) = true
  · simp only [if_pos hb]
    simp only [first_frame_in_block, get_block_number, BITS_PER_BLOCK]
    omega
  · simp only [if_neg hb] at hnone ⊢
    obtain ⟨hs, hl, hx⟩ := key
      ((last_frame_in_block (get_block_number a.next_frame.number)).number + 1 -
        a.next_frame.number) a (get_block_number a.next_frame.number) (le_refl _) hnone
    rw [hs, hl, hx]
    simp only [last_frame_in_block, get_block_number, BITS_PER_BLOCK]
    omega

/-- `BitmapFrameAllocator::deallocate_frame`; the `debug_assert!(frame <
self.last_frame)` is modelled as a precondition of the theorems about it. -/
def deallocate_frame (a : BitmapFrameAllocator) (frame : Frame) :
    BitmapFrameAllocator :=
  set_used a frame.number false

/-- Modelled from the spec: Rust's `Iterator::max_by_key` on the cloneable
memory-area iterator — the last element attaining the maximal `base_addr`,
`none` on an empty map (where the code's `unwrap` panics). -/
def max_by_key_base_addr (areas : List MemoryArea) : Option MemoryArea :=
  areas.foldl
    (fun acc area =>
      match acc with
      | none => some area
      | some m => if m.base_addr ≤ area.base_addr then some area else some m)
    none

/-- The body of the `for frame in Frame::range_inclusive(..) {
self.set_used(frame.number(), true) }` loops. -/
def mark_frames_used (a : BitmapFrameAllocator) (frames : List Frame) :
    BitmapFrameAllocator :=
  frames.foldl (fun acc f => set_used acc f.number true) a

/-- One iteration of the gap loop in `map_memory_areas`: reserve every frame
from the frame containing `area1.base_addr + area1.length` to the frame
containing `area2.base_addr - 1` (both in wrapping `u64` arithmetic, then
cast to `usize`). -/
def map_area_gap (a : BitmapFrameAllocator) (area1 area2 : MemoryArea) :
    BitmapFrameAllocator :=
  let start_occupied := Frame.containing_address ((area1.base_addr + area1.length) % U64_MOD)
  let end_occupied := Frame.containing_address ((area2.base_addr + U64_MOD - 1) % U64_MOD)
  mark_frames_used a (Frame.range_inclusive start_occupied end_occupied)

/-- `BitmapFrameAllocator::map_memory_areas`.  `none` models the `unwrap`
panic on an empty memory map. -/
def map_memory_areas (a : BitmapFrameAllocator) (memory_areas : List MemoryArea) :
    Option BitmapFrameAllocator :=
  match max_by_key_base_addr memory_areas with
  | none => none
  | some last_area =>
    let a1 := { a with
      last_frame := Frame.containing_address ((last_area.base_addr + last_area.length) % U64_MOD) }
    let a2 := set_used a1 a1.last_frame.number true
    some ((memory_areas.zip memory_areas.tail).foldl (fun acc p => map_area_gap acc p.1 p.2) a2)

/-- `BitmapFrameAllocator::map_kernel`. -/
def map_kernel (a : BitmapFrameAllocator) (kernel_start kernel_end : Nat) :
    BitmapFrameAllocator :=
  mark_frames_used a
    (Frame.range_inclusive (Frame.containing_address kernel_start)
      (Frame.containing_address kernel_end))

/-- `BitmapFrameAllocator::map_multiboot`. -/
def map_multiboot (a : BitmapFrameAllocator) (multiboot_start multiboot_end : Nat) :
    BitmapFrameAllocator :=
  mark_frames_used a
    (Frame.range_inclusive (Frame.containing_address multiboot_start)
      (Frame.containing_address multiboot_end))

/-- `BitmapFrameAllocator::new`. -/
def BitmapFrameAllocator.new (bitmap : Nat → Nat)
    (kernel_start kernel_end multiboot_start multiboot_end : Nat)
    (memory_areas : List MemoryArea) : Option BitmapFrameAllocator :=
  let allocator : BitmapFrameAllocator :=
    { bitmap := bitmap, second_scan := false,
      next_frame := Frame.containing_address 0,
      last_frame := Frame.containing_address 0 }
  match map_memory_areas allocator memory_areas with
  | none => none
  | some a =>
    some (map_multiboot (map_kernel a kernel_start kernel_end) multiboot_start multiboot_end)

/-- Specification helper: the first frame index of the gap reserved for an
adjacent area pair, `frame(area1.base_addr + area1.length)`. -/
def gap_start (area1 : MemoryArea) : Nat :=
  (Frame.containing_address ((area1.base_addr + area1.length) % U64_MOD)).number

/-- Specification helper: the last frame index of the gap reserved for an
adjacent area pair, `frame(area2.base_addr - 1)` in wrapping `u64`
arithmetic. -/
def gap_end (area2 : MemoryArea) : Nat :=
  (Frame.containing_address ((area2.base_addr + U64_MOD - 1) % U64_MOD)).number

lemma Frame.eta (f : Frame) : (⟨f.number⟩ : Frame) = f := rfl

lemma frame_is_used_testBit (a : BitmapFrameAllocator) (j : Nat) :
    frame_is_used a j = (a.bitmap (j / BITS_PER_BLOCK)).testBit (j % BITS_PER_BLOCK) := by
  unfold frame_is_used
  rw [Nat.shiftLeft_eq, one_mul, Nat.and_two_pow]
  cases h : (a.bitmap (j / BITS_PER_BLOCK)).testBit (j % BITS_PER_BLOCK) <;>
    simp [h, Nat.pos_iff_ne_zero, pow_ne_zero]

lemma set_used_bitmap (a : BitmapFrameAllocator) (i : Nat) (v : Bool) :
    (set_used a i v).bitmap =
      Function.update a.bitmap (i / BITS_PER_BLOCK)
        (if v then a.bitmap (i / BITS_PER_BLOCK) ||| (1 <<< (i % BITS_PER_BLOCK))
         else a.bitmap (i / BITS_PER_BLOCK) &&& (USIZE_MAX ^^^ (1 <<< (i % BITS_PER_BLOCK)))) := by
  cases v <;> rfl

lemma set_used_second_scan (a : BitmapFrameAllocator) (i : Nat) (v : Bool) :
    (set_used a i v).second_scan = a.second_scan := by
  cases v <;> rfl

lemma set_used_next_frame (a : BitmapFrameAllocator) (i : Nat) (v : Bool) :
    (set_used a i v).next_frame = a.next_frame := by
  cases v <;> rfl

lemma set_used_last_frame (a : BitmapFrameAllocator) (i : Nat) (v : Bool) :
    (set_used a i v).last_frame = a.last_frame := by
  cases v <;> rfl

lemma div_mod_eq_iff {i j : Nat} :
    (j / BITS_PER_BLOCK = i / BITS_PER_BLOCK ∧ j % BITS_PER_BLOCK = i % BITS_PER_BLOCK) ↔ j = i := by
  simp only [BITS_PER_BLOCK]
  omega

lemma frame_is_used_set_used_true (a : BitmapFrameAllocator) (i j : Nat) :
    frame_is_used (set_used a i true) j = (frame_is_used a j || decide (j = i)) := by
  rw [frame_is_used_testBit, frame_is_used_testBit, set_used_bitmap]
  by_cases hw : j / BITS_PER_BLOCK = i / BITS_PER_BLOCK
  · rw [hw, Function.update_same, if_pos rfl, Nat.testBit_or, Nat.shiftLeft_eq, one_mul,
      Nat.testBit_two_pow]
    by_cases hb : j % BITS_PER_BLOCK = i % BITS_PER_BLOCK
    · have : j = i := div_mod_eq_iff.mp ⟨hw, hb⟩
      simp [this]
    · have hne : ¬ j = i := fun h => hb (by rw [h])
      have hb2 : ¬ i % BITS_PER_BLOCK = j % BITS_PER_BLOCK := fun h => hb h.symm
      simp [hne, hb2]
  · rw [Function.update_noteq hw]
    have : ¬ j = i := fun h => hw (by rw [h])
    simp [this]

lemma frame_is_used_set_used_false (a : BitmapFrameAllocator) (i j : Nat) :
    frame_is_used (set_used a i false) j = (frame_is_used a j && !(decide (j = i))) := by
  rw [frame_is_used_testBit, frame_is_used_testBit, set_used_bitmap]
  by_cases hw : j / BITS_PER_BLOCK = i / BITS_PER_BLOCK
  · rw [hw, Function.update_same]
    simp only [if_neg Bool.false_ne_true]
    rw [Nat.testBit_and, Nat.testBit_xor, Nat.shiftLeft_eq, one_mul, Nat.testBit_two_pow]
    rw [USIZE_MAX, Nat.testBit_two_pow_sub_one]
    have hlt : i % BITS_PER_BLOCK < 64 := Nat.mod_lt _ (by decide)
    by_cases hb : j % BITS_PER_BLOCK = i % BITS_PER_BLOCK
    · have : j = i := div_mod_eq_iff.mp ⟨hw, hb⟩
      simp [this, hb, hlt]
    · have hne : ¬ j = i := fun h => hb (by rw [h])
      have hb2 : ¬ i % BITS_PER_BLOCK = j % BITS_PER_BLOCK := fun h => hb h.symm
      have hlt2 : j % BITS_PER_BLOCK < 64 := Nat.mod_lt _ (by decide)
      simp [hne, hb2, hlt2]
  · rw [Function.update_noteq hw]
    have : ¬ j = i := fun h => hw (by rw [h])
    simp [this]

lemma frame_is_used_congr {a b : BitmapFrameAllocator} (h : a.bitmap = b.bitmap) (j : Nat) :
    frame_is_used a j = frame_is_used b j := by
  unfold frame_is_used
  rw [h]

lemma set_used_bitmap_congr {a b : BitmapFrameAllocator} (h : a.bitmap = b.bitmap)
    (i : Nat) (v : Bool) : (set_used a i v).bitmap = (set_used b i v).bitmap := by
  rw [set_used_bitmap, set_used_bitmap, h]

lemma block_is_used_all_used {a : BitmapFrameAllocator} {bn : Nat}
    (h : block_is_used a bn = true) {j : Nat} (hj : j / BITS_PER_BLOCK = bn) :
    frame_is_used a j = true := by
  unfold block_is_used at h
  have hw : a.bitmap bn = USIZE_MAX := eq_of_beq h
  rw [frame_is_used_testBit, hj, hw, USIZE_MAX, Nat.testBit_two_pow_sub_one]
  have : j % BITS_PER_BLOCK < 64 := Nat.mod_lt _ (by decide)
  simpa using this

lemma find_free_frame_loop_spec_aux :
    ∀ (n : Nat) (a : BitmapFrameAllocator) (bn : Nat),
    (last_frame_in_block bn).number + 1 - a.next_frame.number ≤ n →
    ((∀ f, (find_free_frame_loop a bn).1 = some f →
        a.next_frame.number ≤ f.number ∧
        f.number ≤ (last_frame_in_block bn).number ∧
        frame_is_used a f.number = false ∧
        (∀ g, a.next_frame.number ≤ g → g < f.number → frame_is_used a g = true) ∧
        (find_free_frame_loop a bn).2.bitmap = (set_used a f.number true).bitmap ∧
        (find_free_frame_loop a bn).2.second_scan = a.second_scan ∧
        (find_free_frame_loop a bn).2.last_frame = a.last_frame ∧
        (find_free_frame_loop a bn).2.next_frame.number = f.number + 1) ∧
     ((find_free_frame_loop a bn).1 = none →
        (∀ g, a.next_frame.number ≤ g → g ≤ (last_frame_in_block bn).number →
          frame_is_used a g = true) ∧
        (find_free_frame_loop a bn).2.bitmap = a.bitmap ∧
        (find_free_frame_loop a bn).2.second_scan = a.second_scan ∧
        (find_free_frame_loop a bn).2.last_frame = a.last_frame ∧
        (find_free_frame_loop a bn).2.next_frame.number =
          max a.next_frame.number ((last_frame_in_block bn).number + 1))) := by
  intro n
  induction n with
  | zero =>
    intro a bn hn
    have hgt : ¬ a.next_frame.number ≤ (last_frame_in_block bn).number := by omega
    rw [find_free_frame_loop.eq_def]
    simp only [if_neg hgt]
    constructor
    · intro f hf
      simp at hf
    · intro _
      refine ⟨?_, trivial, trivial, trivial, by omega⟩
      intro g hg1 hg2
      omega
  | succ n ih =>
    intro a bn hn
    rw [find_free_frame_loop.eq_def]
    by_cases hle : a.next_frame.number ≤ (last_frame_in_block bn).number
    · simp only [if_pos hle]
      by_cases hu : frame_is_used a a.next_frame.number = true
      · simp only [if_pos hu]
        have hm : (last_frame_in_block bn).number + 1 -
            ({ a with next_frame := ⟨a.next_frame.number + 1⟩ } :
              BitmapFrameAllocator).next_frame.number ≤ n := by
          simp only
          omega
        obtain ⟨ihs, ihn⟩ := ih { a with next_frame := ⟨a.next_frame.number + 1⟩ } bn hm
        constructor
        · intro f hf
          obtain ⟨c1, c2, c3, c4, c5, c6, c7, c8⟩ := ihs f hf
          simp only at c1 c2 c3 c4 c5 c6 c7 c8
          refine ⟨by omega, c2, c3, ?_, c5, c6, c7, c8⟩
          intro g hg1 hg2
          rcases Nat.eq_or_lt_of_le hg1 with hg | hg
          · rw [hg] at hu
            exact hu
          · exact c4 g hg hg2
        · intro hf
          obtain ⟨c1, c2, c3, c4, c5⟩ := ihn hf
          simp only at c1 c2 c3 c4 c5
          refine ⟨?_, c2, c3, c4, by omega⟩
          intro g hg1 hg2
          rcases Nat.eq_or_lt_of_le hg1 with hg | hg
          · rw [hg] at hu
            exact hu
          · exact c1 g hg hg2
      · simp only [if_neg hu]
        constructor
        · intro f hf
          simp only [Option.some.injEq] at hf
          subst hf
          refine ⟨le_refl _, hle, by simpa using hu, ?_, rfl, ?_, ?_, rfl⟩
          · intro g hg1 hg2
            omega
          · rw [set_used_second_scan]
          · rw [set_used_last_frame]
        · intro hf
          simp at hf
    · simp only [if_neg hle]
      constructor
      · intro f hf
        simp at hf
      · intro _
        refine ⟨?_, trivial, trivial, trivial, by omega⟩
        intro g hg1 hg2
        omega

lemma find_free_frame_loop_some {a : BitmapFrameAllocator} {bn : Nat} {f : Frame}
    (h : (find_free_frame_loop a bn).1 = some f) :
    a.next_frame.number ≤ f.number ∧
    f.number ≤ (last_frame_in_block bn).number ∧
    frame_is_used a f.number = false ∧
    (∀ g, a.next_frame.number ≤ g → g < f.number → frame_is_used a g = true) ∧
    (find_free_frame_loop a bn).2.bitmap = (set_used a f.number true).bitmap ∧
    (find_free_frame_loop a bn).2.second_scan = a.second_scan ∧
    (find_free_frame_loop a bn).2.last_frame = a.last_frame ∧
    (find_free_frame_loop a bn).2.next_frame.number = f.number + 1 :=
  (find_free_frame_loop_spec_aux
    ((last_frame_in_block bn).number + 1 - a.next_frame.number) a bn (le_refl _)).1 f h

lemma find_free_frame_loop_none {a : BitmapFrameAllocator} {bn : Nat}
    (h : (find_free_frame_loop a bn).1 = none) :
    (∀ g, a.next_frame.number ≤ g → g ≤ (last_frame_in_block bn).number →
      frame_is_used a g = true) ∧
    (find_free_frame_loop a bn).2.bitmap = a.bitmap ∧
    (find_free_frame_loop a bn).2.second_scan = a.second_scan ∧
    (find_free_frame_loop a bn).2.last_frame = a.last_frame ∧
    (find_free_frame_loop a bn).2.next_frame.number =
      max a.next_frame.number ((last_frame_in_block bn).number + 1) :=
  (find_free_frame_loop_spec_aux
    ((last_frame_in_block bn).number + 1 - a.next_frame.number) a bn (le_refl _)).2 h

lemma find_free_frame_in_block_some {a : BitmapFrameAllocator} {bn : Nat} {f : Frame}
    (h : (find_free_frame_in_block a bn).1 = some f) :
    a.next_frame.number ≤ f.number ∧
    f.number ≤ (last_frame_in_block bn).number ∧
    frame_is_used a f.number = false ∧
    (∀ g, a.next_frame.number ≤ g → g < f.number → frame_is_used a g = true) ∧
    (find_free_frame_in_block a bn).2.bitmap = (set_used a f.number true).bitmap ∧
    (find_free_frame_in_block a bn).2.second_scan = a.second_scan ∧
    (find_free_frame_in_block a bn).2.last_frame = a.last_frame ∧
    (find_free_frame_in_block a bn).2.next_frame.number = f.number + 1 := by
  unfold find_free_frame_in_block at h ⊢
  by_cases hb : block_is_used a bn = true
  · rw [if_pos hb] at h
    simp at h
  · rw [if_neg hb] at h ⊢
    exact find_free_frame_loop_some h

lemma find_free_frame_in_block_none {a : BitmapFrameAllocator} {bn : Nat}
    (hbn : bn = get_block_number a.next_frame.number)
    (h : (find_free_frame_in_block a bn).1 = none) :
    (∀ g, a.next_frame.number ≤ g → g ≤ (last_frame_in_block bn).number →
      frame_is_used a g = true) ∧
    (find_free_frame_in_block a bn).2.bitmap = a.bitmap ∧
    (find_free_frame_in_block a bn).2.second_scan = a.second_scan ∧
    (find_free_frame_in_block a bn).2.last_frame = a.last_frame ∧
    (find_free_frame_in_block a bn).2.next_frame.number =
      (last_frame_in_block bn).number + 1 ∧
    a.next_frame.number ≤ (last_frame_in_block bn).number := by
  have hmem : a.next_frame.number ≤ (last_frame_in_block bn).number := by
    subst hbn
    simp only [last_frame_in_block, get_block_number, BITS_PER_BLOCK]
    omega
  unfold find_free_frame_in_block at h ⊢
  by_cases hb : block_is_used a bn = true
  · rw [if_pos hb]
    refine ⟨?_, rfl, rfl, rfl, ?_, hmem⟩
    · intro g hg1 hg2
      refine block_is_used_all_used hb ?_
      subst hbn
      simp only [last_frame_in_block, get_block_number, BITS_PER_BLOCK] at hg2 ⊢
      omega
    · simp only [first_frame_in_block, last_frame_in_block, BITS_PER_BLOCK]
      omega
  · rw [if_neg hb] at h ⊢
    obtain ⟨c1, c2, c3, c4, c5⟩ := find_free_frame_loop_none h
    exact ⟨c1, c2, c3, c4, by omega, hmem⟩

lemma allocate_frame_spec_aux :
    ∀ (n : Nat) (a : BitmapFrameAllocator),
    (if a.second_scan then 0 else a.last_frame.number + 1) +
      (a.last_frame.number - a.next_frame.number) ≤ n →
    ((∀ f, (allocate_frame a).1 = some f →
        frame_is_used a f.number = false ∧
        (allocate_frame a).2.bitmap = (set_used a f.number true).bitmap ∧
        (allocate_frame a).2.last_frame = a.last_frame ∧
        (allocate_frame a).2.next_frame.number = f.number + 1 ∧
        f.number < BITS_PER_BLOCK *
          ((a.last_frame.number + BITS_PER_BLOCK - 1) / BITS_PER_BLOCK) ∧
        ((a.next_frame.number < a.last_frame.number ∧
            a.next_frame.number ≤ f.number ∧
            (∀ g, a.next_frame.number ≤ g → g < f.number → frame_is_used a g = true) ∧
            (allocate_frame a).2.second_scan = a.second_scan) ∨
         (a.second_scan = false ∧
            (allocate_frame a).2.second_scan = true ∧
            (∀ g, a.next_frame.number ≤ g → g < a.last_frame.number →
              frame_is_used a g = true) ∧
            (∀ g, g < f.number → frame_is_used a g = true)))) ∧
     ((allocate_frame a).1 = none →
        (allocate_frame a).2.bitmap = a.bitmap ∧
        (allocate_frame a).2.second_scan = false ∧
        (allocate_frame a).2.last_frame = a.last_frame ∧
        (a.second_scan = false →
          ∀ g, g < a.last_frame.number → frame_is_used a g = true) ∧
        (a.second_scan = true →
          ∀ g, a.next_frame.number ≤ g → g < a.last_frame.number →
            frame_is_used a g = true))) := by
  intro n
  induction n using Nat.strong_induction_on with
  | _ n ih =>
  intro a hm
  by_cases hge : a.last_frame.number ≤ a.next_frame.number
  · by_cases hsc : a.second_scan = true
    · -- exhausted second pass: the call returns none
      have heq : allocate_frame a = (none, { a with second_scan := false }) := by
        rw [allocate_frame.eq_def]
        rw [if_pos (show a.next_frame.number ≥ a.last_frame.number from hge), if_pos hsc]
      rw [heq]
      constructor
      · intro f hf
        simp at hf
      · intro _
        refine ⟨rfl, rfl, rfl, ?_, ?_⟩
        · intro h
          rw [h] at hsc
          cases hsc
        · intro _ g hg1 hg2
          exact absurd hg2 (by omega)
    · -- first pass exhausted: wrap around and rescan from frame 0
      have heq : allocate_frame a =
          allocate_frame { a with second_scan := true, next_frame := ⟨0⟩ } := by
        rw [allocate_frame.eq_def]
        rw [if_pos (show a.next_frame.number ≥ a.last_frame.number from hge), if_neg hsc]
      have hsc' : a.second_scan = false := by
        cases h : a.second_scan
        · rfl
        · exact absurd h hsc
      obtain ⟨ihs, ihn⟩ := ih a.last_frame.number
        (by rw [hsc'] at hm; simp at hm; omega)
        { a with second_scan := true, next_frame := ⟨0⟩ } (by simp)
      rw [heq]
      constructor
      · intro f hf
        obtain ⟨e1, e2, e3, e4, e5, e6⟩ := ihs f hf
        refine ⟨e1, e2, e3, e4, e5, Or.inr ⟨hsc', ?_, ?_, ?_⟩⟩
        · rcases e6 with ⟨_, _, _, hsec⟩ | ⟨_, hsec, _, _⟩
          · exact hsec
          · exact hsec
        · intro g hg1 hg2
          exact absurd hg2 (by omega)
        · rcases e6 with ⟨_, _, h2, _⟩ | ⟨hb2, _, _, _⟩
          · intro g hg
            exact h2 g (Nat.zero_le g) hg
          · simp at hb2
      · intro hf
        obtain ⟨e1, e2, e3, e4, e5⟩ := ihn hf
        refine ⟨e1, e2, e3, ?_, ?_⟩
        · intro _ g hg
          exact e5 rfl g (Nat.zero_le g) hg
        · intro h
          exact absurd h hsc
  · -- a pass is in progress: scan the block containing the cursor
    have hlt : a.next_frame.number < a.last_frame.number := by omega
    rcases hr : (find_free_frame_in_block a (get_block_number a.next_frame.number)).1 with _ | f0
    · -- the block had no free frame: the cursor advanced, loop again
      have heq : allocate_frame a =
          allocate_frame (find_free_frame_in_block a (get_block_number a.next_frame.number)).2 := by
        rw [allocate_frame.eq_def]
        rw [if_neg (show ¬ a.next_frame.number ≥ a.last_frame.number by omega)]
        simp only [hr, Option.isSome_none, Bool.false_eq_true, if_false]
      obtain ⟨d1, d2, d3, d4, d5, d6⟩ := find_free_frame_in_block_none rfl hr
      obtain ⟨ihs, ihn⟩ := ih
        ((if a.second_scan then 0 else a.last_frame.number + 1) +
          (a.last_frame.number - a.next_frame.number) - 1)
        (by omega)
        (find_free_frame_in_block a (get_block_number a.next_frame.number)).2
        (by rw [d3, d4, d5]; omega)
      rw [heq]
      constructor
      · intro f hf
        obtain ⟨e1, e2, e3, e4, e5, e6⟩ := ihs f hf
        have he1 : frame_is_used a f.number = false := by
          rw [← frame_is_used_congr d2 f.number]
          exact e1
        have he5 : f.number < BITS_PER_BLOCK *
            ((a.last_frame.number + BITS_PER_BLOCK - 1) / BITS_PER_BLOCK) := by
          rw [d4] at e5
          exact e5
        refine ⟨he1, ?_, ?_, e4, he5, ?_⟩
        · rw [e2]
          exact set_used_bitmap_congr d2 f.number true
        · rw [e3, d4]
        · rcases e6 with ⟨_, h1, h2, hsec⟩ | ⟨hb2, hsec, h2, h3⟩
          · rw [d5] at h1
            refine Or.inl ⟨hlt, by omega, ?_, by rw [hsec, d3]⟩
            intro g hg1 hg2
            by_cases hgb : g ≤ (last_frame_in_block (get_block_number a.next_frame.number)).number
            · exact d1 g hg1 hgb
            · rw [← frame_is_used_congr d2 g]
              exact h2 g (by rw [d5]; omega) hg2
          · rw [d3] at hb2
            refine Or.inr ⟨hb2, hsec, ?_, ?_⟩
            · intro g hg1 hg2
              by_cases hgb : g ≤ (last_frame_in_block (get_block_number a.next_frame.number)).number
              · exact d1 g hg1 hgb
              · rw [← frame_is_used_congr d2 g]
                exact h2 g (by rw [d5]; omega) (by rw [d4]; omega)
            · intro g hg
              rw [← frame_is_used_congr d2 g]
              exact h3 g hg
      · intro hf
        obtain ⟨e1, e2, e3, e4, e5⟩ := ihn hf
        refine ⟨by rw [e1, d2], e2, by rw [e3, d4], ?_, ?_⟩
        · intro h g hg
          rw [← frame_is_used_congr d2 g]
          refine e4 (by rw [d3, h]) g ?_
          rw [d4]
          exact hg
        · intro h g hg1 hg2
          by_cases hgb : g ≤ (last_frame_in_block (get_block_number a.next_frame.number)).number
          · exact d1 g hg1 hgb
          · rw [← frame_is_used_congr d2 g]
            refine e5 (by rw [d3, h]) g (by rw [d5]; omega) ?_
            rw [d4]
            exact hg2
    · -- the block contained a free frame: it is returned
      have heq : allocate_frame a =
          find_free_frame_in_block a (get_block_number a.next_frame.number) := by
        rw [allocate_frame.eq_def]
        rw [if_neg (show ¬ a.next_frame.number ≥ a.last_frame.number by omega)]
        simp only [hr, Option.isSome_some, if_true]
      rw [heq]
      constructor
      · intro f hf
        obtain ⟨s1, s2, s3, s4, s5, s6, s7, s8⟩ := find_free_frame_in_block_some hf
        have hb : f.number < BITS_PER_BLOCK *
            ((a.last_frame.number + BITS_PER_BLOCK - 1) / BITS_PER_BLOCK) := by
          simp only [last_frame_in_block, get_block_number, BITS_PER_BLOCK] at s2 ⊢
          omega
        exact ⟨s3, s5, s7, s8, hb, Or.inl ⟨hlt, s1, s4, s6⟩⟩
      · intro hf
        rw [hr] at hf
        simp at hf

lemma allocate_frame_some {a : BitmapFrameAllocator} {f : Frame}
    (h : (allocate_frame a).1 = some f) :
    frame_is_used a f.number = false ∧
    (allocate_frame a).2.bitmap = (set_used a f.number true).bitmap ∧
    (allocate_frame a).2.last_frame = a.last_frame ∧
    (allocate_frame a).2.next_frame.number = f.number + 1 ∧
    f.number < BITS_PER_BLOCK *
      ((a.last_frame.number + BITS_PER_BLOCK - 1) / BITS_PER_BLOCK) ∧
    ((a.next_frame.number < a.last_frame.number ∧
        a.next_frame.number ≤ f.number ∧
        (∀ g, a.next_frame.number ≤ g → g < f.number → frame_is_used a g = true) ∧
        (allocate_frame a).2.second_scan = a.second_scan) ∨
     (a.second_scan = false ∧
        (allocate_frame a).2.second_scan = true ∧
        (∀ g, a.next_frame.number ≤ g → g < a.last_frame.number →
          frame_is_used a g = true) ∧
        (∀ g, g < f.number → frame_is_used a g = true))) :=
  (allocate_frame_spec_aux
    ((if a.second_scan then 0 else a.last_frame.number + 1) +
      (a.last_frame.number - a.next_frame.number)) a (le_refl _)).1 f h

lemma allocate_frame_none {a : BitmapFrameAllocator}
    (h : (allocate_frame a).1 = none) :
    (allocate_frame a).2.bitmap = a.bitmap ∧
    (allocate_frame a).2.second_scan = false ∧
    (allocate_frame a).2.last_frame = a.last_frame ∧
    (a.second_scan = false →
      ∀ g, g < a.last_frame.number → frame_is_used a g = true) ∧
    (a.second_scan = true →
      ∀ g, a.next_frame.number ≤ g → g < a.last_frame.number →
        frame_is_used a g = true) :=
  (allocate_frame_spec_aux
    ((if a.second_scan then 0 else a.last_frame.number + 1) +
      (a.last_frame.number - a.next_frame.number)) a (le_refl _)).2 h

lemma allocate_frame_exhaust_aux :
    ∀ (n : Nat) (a : BitmapFrameAllocator),
    (if a.second_scan then 0 else a.last_frame.number + 1) +
      (a.last_frame.number - a.next_frame.number) ≤ n →
    (∀ g, g < BITS_PER_BLOCK *
        ((a.last_frame.number + BITS_PER_BLOCK - 1) / BITS_PER_BLOCK) →
      frame_is_used a g = true) →
    (allocate_frame a).1 = none := by
  intro n
  induction n using Nat.strong_induction_on with
  | _ n ih =>
  intro a hm hall
  by_cases hge : a.last_frame.number ≤ a.next_frame.number
  · by_cases hsc : a.second_scan = true
    · rw [allocate_frame.eq_def]
      rw [if_pos (show a.next_frame.number ≥ a.last_frame.number from hge), if_pos hsc]
    · have heq : allocate_frame a =
          allocate_frame { a with second_scan := true, next_frame := ⟨0⟩ } := by
        rw [allocate_frame.eq_def]
        rw [if_pos (show a.next_frame.number ≥ a.last_frame.number from hge), if_neg hsc]
      have hsc' : a.second_scan = false := by
        cases h : a.second_scan
        · rfl
        · exact absurd h hsc
      rw [heq]
      exact ih a.last_frame.number (by rw [hsc'] at hm; simp at hm; omega)
        { a with second_scan := true, next_frame := ⟨0⟩ } (by simp) hall
  · have hlt : a.next_frame.number < a.last_frame.number := by omega
    rcases hr : (find_free_frame_in_block a (get_block_number a.next_frame.number)).1 with _ | f0
    · have heq : allocate_frame a =
          allocate_frame (find_free_frame_in_block a (get_block_number a.next_frame.number)).2 := by
        rw [allocate_frame.eq_def]
        rw [if_neg (show ¬ a.next_frame.number ≥ a.last_frame.number by omega)]
        simp only [hr, Option.isSome_none, Bool.false_eq_true, if_false]
      obtain ⟨d1, d2, d3, d4, d5, d6⟩ := find_free_frame_in_block_none rfl hr
      rw [heq]
      refine ih
        ((if a.second_scan then 0 else a.last_frame.number + 1) +
          (a.last_frame.number - a.next_frame.number) - 1)
        (by omega)
        (find_free_frame_in_block a (get_block_number a.next_frame.number)).2
        (by rw [d3, d4, d5]; omega) ?_
      intro g hg
      rw [frame_is_used_congr d2 g]
      refine hall g ?_
      rw [d4] at hg
      exact hg
    · exfalso
      obtain ⟨s1, s2, s3, s4, s5, s6, s7, s8⟩ := find_free_frame_in_block_some hr
      have hb : f0.number < BITS_PER_BLOCK *
          ((a.last_frame.number + BITS_PER_BLOCK - 1) / BITS_PER_BLOCK) := by
        simp only [last_frame_in_block, get_block_number, BITS_PER_BLOCK] at s2 ⊢
        omega
      rw [hall f0.number hb] at s3
      cases s3

lemma allocate_frame_exhaust {a : BitmapFrameAllocator}
    (hall : ∀ g, g < BITS_PER_BLOCK *
        ((a.last_frame.number + BITS_PER_BLOCK - 1) / BITS_PER_BLOCK) →
      frame_is_used a g = true) :
    (allocate_frame a).1 = none :=
  allocate_frame_exhaust_aux
    ((if a.second_scan then 0 else a.last_frame.number + 1) +
      (a.last_frame.number - a.next_frame.number)) a (le_refl _) hall

lemma mem_range_inclusive {x y f : Frame} :
    f ∈ Frame.range_inclusive x y ↔ x.number ≤ f.number ∧ f.number ≤ y.number := by
  obtain ⟨m⟩ := f
  simp only [Frame.range_inclusive, List.mem_map, List.mem_range'_1, Frame.mk.injEq]
  constructor
  · rintro ⟨i, ⟨hi1, hi2⟩, rfl⟩
    exact ⟨hi1, by omega⟩
  · rintro ⟨h1, h2⟩
    exact ⟨m, ⟨h1, by omega⟩, rfl⟩

lemma mark_frames_used_fields : ∀ (l : List Frame) (a : BitmapFrameAllocator),
    (mark_frames_used a l).second_scan = a.second_scan ∧
    (mark_frames_used a l).next_frame = a.next_frame ∧
    (mark_frames_used a l).last_frame = a.last_frame := by
  intro l
  induction l with
  | nil => intro a; exact ⟨rfl, rfl, rfl⟩
  | cons x t ih =>
    intro a
    obtain ⟨h1, h2, h3⟩ := ih (set_used a x.number true)
    unfold mark_frames_used at h1 h2 h3 ⊢
    simp only [List.foldl_cons]
    refine ⟨?_, ?_, ?_⟩
    · rw [h1, set_used_second_scan]
    · rw [h2, set_used_next_frame]
    · rw [h3, set_used_last_frame]

lemma mark_frames_used_spec : ∀ (l : List Frame) (a : BitmapFrameAllocator) (j : Nat),
    (frame_is_used (mark_frames_used a l) j = true ↔
      frame_is_used a j = true ∨ ∃ f ∈ l, f.number = j) := by
  intro l
  induction l with
  | nil =>
    intro a j
    simp [mark_frames_used]
  | cons x t ih =>
    intro a j
    unfold mark_frames_used
    simp only [List.foldl_cons]
    have step := ih (set_used a x.number true) j
    unfold mark_frames_used at step
    rw [step, frame_is_used_set_used_true]
    simp only [Bool.or_eq_true, decide_eq_true_eq, List.mem_cons]
    constructor
    · rintro ((h | h) | ⟨f, hf, rfl⟩)
      · exact Or.inl h
      · exact Or.inr ⟨x, Or.inl rfl, h.symm⟩
      · exact Or.inr ⟨f, Or.inr hf, rfl⟩
    · rintro (h | ⟨f, (rfl | hf), rfl⟩)
      · exact Or.inl (Or.inl h)
      · exact Or.inl (Or.inr rfl)
      · exact Or.inr ⟨f, hf, rfl⟩

lemma map_area_gap_spec (a : BitmapFrameAllocator) (p1 p2 : MemoryArea) (j : Nat) :
    frame_is_used (map_area_gap a p1 p2) j = true ↔
      frame_is_used a j = true ∨ (gap_start p1 ≤ j ∧ j ≤ gap_end p2) := by
  unfold map_area_gap
  rw [mark_frames_used_spec]
  unfold gap_start gap_end
  constructor
  · rintro (h | ⟨f, hf, rfl⟩)
    · exact Or.inl h
    · exact Or.inr (mem_range_inclusive.mp hf)
  · rintro (h | ⟨h1, h2⟩)
    · exact Or.inl h
    · exact Or.inr ⟨⟨j⟩, mem_range_inclusive.mpr ⟨h1, h2⟩, rfl⟩

lemma map_area_gap_fields (a : BitmapFrameAllocator) (p1 p2 : MemoryArea) :
    (map_area_gap a p1 p2).second_scan = a.second_scan ∧
    (map_area_gap a p1 p2).next_frame = a.next_frame ∧
    (map_area_gap a p1 p2).last_frame = a.last_frame := by
  unfold map_area_gap
  exact mark_frames_used_fields _ _

lemma gap_fold_spec : ∀ (l : List (MemoryArea × MemoryArea)) (a : BitmapFrameAllocator) (j : Nat),
    frame_is_used (l.foldl (fun acc p => map_area_gap acc p.1 p.2) a) j = true ↔
      frame_is_used a j = true ∨ ∃ p ∈ l, gap_start p.1 ≤ j ∧ j ≤ gap_end p.2 := by
  intro l
  induction l with
  | nil =>
    intro a j
    simp
  | cons x t ih =>
    intro a j
    simp only [List.foldl_cons]
    rw [ih (map_area_gap a x.1 x.2) j, map_area_gap_spec]
    simp only [List.mem_cons]
    constructor
    · rintro ((h | h) | ⟨p, hp, hb⟩)
      · exact Or.inl h
      · exact Or.inr ⟨x, Or.inl rfl, h⟩
      · exact Or.inr ⟨p, Or.inr hp, hb⟩
    · rintro (h | ⟨p, (rfl | hp), hb⟩)
      · exact Or.inl (Or.inl h)
      · exact Or.inl (Or.inr hb)
      · exact Or.inr ⟨p, hp, hb⟩

lemma gap_fold_fields : ∀ (l : List (MemoryArea × MemoryArea)) (a : BitmapFrameAllocator),
    (l.foldl (fun acc p => map_area_gap acc p.1 p.2) a).second_scan = a.second_scan ∧
    (l.foldl (fun acc p => map_area_gap acc p.1 p.2) a).next_frame = a.next_frame ∧
    (l.foldl (fun acc p => map_area_gap acc p.1 p.2) a).last_frame = a.last_frame := by
  intro l
  induction l with
  | nil => intro a; exact ⟨rfl, rfl, rfl⟩
  | cons x t ih =>
    intro a
    obtain ⟨h1, h2, h3⟩ := ih (map_area_gap a x.1 x.2)
    obtain ⟨g1, g2, g3⟩ := map_area_gap_fields a x.1 x.2
    simp only [List.foldl_cons]
    exact ⟨by rw [h1, g1], by rw [h2, g2], by rw [h3, g3]⟩

lemma map_memory_areas_spec {a : BitmapFrameAllocator} {areas : List MemoryArea}
    {al la : _} (hla : max_by_key_base_addr areas = some la)
    (h : map_memory_areas a areas = some al) :
    al.last_frame = Frame.containing_address ((la.base_addr + la.length) % U64_MOD) ∧
    al.next_frame = a.next_frame ∧
    al.second_scan = a.second_scan ∧
    ∀ j, (frame_is_used al j = true ↔
      frame_is_used a j = true ∨ j = al.last_frame.number ∨
      ∃ p ∈ areas.zip areas.tail, gap_start p.1 ≤ j ∧ j ≤ gap_end p.2) := by
  unfold map_memory_areas at h
  rw [hla] at h
  simp only [Option.some.injEq] at h
  subst h
  obtain ⟨f1, f2, f3⟩ := gap_fold_fields (areas.zip areas.tail)
    (set_used { a with
      last_frame := Frame.containing_address ((la.base_addr + la.length) % U64_MOD) }
      (Frame.containing_address ((la.base_addr + la.length) % U64_MOD)).number true)
  have hlast : (((areas.zip areas.tail).foldl (fun acc p => map_area_gap acc p.1 p.2)
      (set_used { a with
        last_frame := Frame.containing_address ((la.base_addr + la.length) % U64_MOD) }
        (Frame.containing_address ((la.base_addr + la.length) % U64_MOD)).number
        true))).last_frame =
      Frame.containing_address ((la.base_addr + la.length) % U64_MOD) := by
    rw [f3, set_used_last_frame]
  refine ⟨hlast, by rw [f2, set_used_next_frame], by rw [f1, set_used_second_scan], ?_⟩
  intro j
  rw [gap_fold_spec, frame_is_used_set_used_true, hlast]
  simp only [Bool.or_eq_true, decide_eq_true_eq]
  constructor
  · rintro ((h | h) | h)
    · exact Or.inl h
    · exact Or.inr (Or.inl h)
    · exact Or.inr (Or.inr h)
  · rintro (h | (h | h))
    · exact Or.inl (Or.inl h)
    · exact Or.inl (Or.inr h)
    · exact Or.inr h

lemma max_by_key_fold_aux : ∀ (t : List MemoryArea) (m : MemoryArea),
    ∃ la, t.foldl
      (fun acc area =>
        match acc with
        | none => some area
        | some mm => if mm.base_addr ≤ area.base_addr then some area else some mm)
      (some m) = some la := by
  intro t
  induction t with
  | nil => intro m; exact ⟨m, rfl⟩
  | cons y t ih =>
    intro m
    simp only [List.foldl_cons]
    by_cases hc : m.base_addr ≤ y.base_addr
    · simp only [if_pos hc]
      exact ih y
    · simp only [if_neg hc]
      exact ih m

lemma max_by_key_base_addr_of_ne_nil {areas : List MemoryArea} (h : areas ≠ []) :
    ∃ la, max_by_key_base_addr areas = some la := by
  match areas with
  | [] => exact absurd rfl h
  | x :: t =>
    unfold max_by_key_base_addr
    simp only [List.foldl_cons]
    exact max_by_key_fold_aux t x

lemma frame_is_used_of_zero {bm : Nat → Nat} (hz : ∀ w, bm w = 0) (j : Nat) :
    frame_is_used
      { bitmap := bm, second_scan := false, next_frame := ⟨0⟩, last_frame := ⟨0⟩ } j
      = false := by
  unfold frame_is_used
  simp [hz]

lemma map_kernel_fields (a : BitmapFrameAllocator) (ks ke : Nat) :
    (map_kernel a ks ke).second_scan = a.second_scan ∧
    (map_kernel a ks ke).next_frame = a.next_frame ∧
    (map_kernel a ks ke).last_frame = a.last_frame := by
  unfold map_kernel
  exact mark_frames_used_fields _ _

lemma map_multiboot_fields (a : BitmapFrameAllocator) (ms me : Nat) :
    (map_multiboot a ms me).second_scan = a.second_scan ∧
    (map_multiboot a ms me).next_frame = a.next_frame ∧
    (map_multiboot a ms me).last_frame = a.last_frame := by
  unfold map_multiboot
  exact mark_frames_used_fields _ _

lemma map_kernel_spec (a : BitmapFrameAllocator) (ks ke : Nat) (j : Nat) :
    frame_is_used (map_kernel a ks ke) j = true ↔
      frame_is_used a j = true ∨ (ks / PAGE_SIZE ≤ j ∧ j ≤ ke / PAGE_SIZE) := by
  unfold map_kernel
  rw [mark_frames_used_spec]
  constructor
  · rintro (h | ⟨f, hf, rfl⟩)
    · exact Or.inl h
    · exact Or.inr (mem_range_inclusive.mp hf)
  · rintro (h | ⟨h1, h2⟩)
    · exact Or.inl h
    · exact Or.inr ⟨⟨j⟩, mem_range_inclusive.mpr ⟨h1, h2⟩, rfl⟩

lemma map_multiboot_spec (a : BitmapFrameAllocator) (ms me : Nat) (j : Nat) :
    frame_is_used (map_multiboot a ms me) j = true ↔
      frame_is_used a j = true ∨ (ms / PAGE_SIZE ≤ j ∧ j ≤ me / PAGE_SIZE) := by
  unfold map_multiboot
  rw [mark_frames_used_spec]
  constructor
  · rintro (h | ⟨f, hf, rfl⟩)
    · exact Or.inl h
    · exact Or.inr (mem_range_inclusive.mp hf)
  · rintro (h | ⟨h1, h2⟩)
    · exact Or.inl h
    · exact Or.inr ⟨⟨j⟩, mem_range_inclusive.mpr ⟨h1, h2⟩, rfl⟩

set_option maxRecDepth 4000 in
lemma new_spec {bm : Nat → Nat} {ks ke ms me : Nat} {areas : List MemoryArea}
    {al : BitmapFrameAllocator}
    (h : BitmapFrameAllocator.new bm ks ke ms me areas = some al) :
    ∃ la, max_by_key_base_addr areas = some la ∧
      al.last_frame = Frame.containing_address ((la.base_addr + la.length) % U64_MOD) ∧
      al.next_frame = ⟨0⟩ ∧
      al.second_scan = false ∧
      ∀ j, (frame_is_used al j = true ↔
        frame_is_used
          { bitmap := bm, second_scan := false, next_frame := ⟨0⟩, last_frame := ⟨0⟩ } j
            = true ∨
        j = al.last_frame.number ∨
        (∃ p ∈ areas.zip areas.tail, gap_start p.1 ≤ j ∧ j ≤ gap_end p.2) ∨
        (ks / PAGE_SIZE ≤ j ∧ j ≤ ke / PAGE_SIZE) ∨
        (ms / PAGE_SIZE ≤ j ∧ j ≤ me / PAGE_SIZE)) := by
  have h2 : (match map_memory_areas
      { bitmap := bm, second_scan := false,
        next_frame := Frame.containing_address 0,
        last_frame := Frame.containing_address 0 } areas with
    | none => (none : Option BitmapFrameAllocator)
    | some a => some (map_multiboot (map_kernel a ks ke) ms me)) = some al := h
  rcases hmm : map_memory_areas
      { bitmap := bm, second_scan := false,
        next_frame := Frame.containing_address 0,
        last_frame := Frame.containing_address 0 } areas with _ | amid
  · rw [hmm] at h2
    simp at h2
  · rw [hmm] at h2
    simp only [Option.some.injEq] at h2
    subst h2
    rcases hmax : max_by_key_base_addr areas with _ | la
    · exfalso
      unfold map_memory_areas at hmm
      rw [hmax] at hmm
      cases hmm
    · obtain ⟨m1, m2, m3, m4⟩ := map_memory_areas_spec hmax hmm
      obtain ⟨k1, k2, k3⟩ := map_kernel_fields amid ks ke
      obtain ⟨b1, b2, b3⟩ := map_multiboot_fields (map_kernel amid ks ke) ms me
      have hlast : (map_multiboot (map_kernel amid ks ke) ms me).last_frame =
          Frame.containing_address ((la.base_addr + la.length) % U64_MOD) := by
        rw [b3, k3, m1]
      refine ⟨la, ?_, ?_, ?_, ?_, ?_⟩
      · rfl
      · exact hlast
      · rw [b2, k2, m2]
        show Frame.containing_address 0 = (⟨0⟩ : Frame)
        decide
      · rw [b1, k1, m3]
      · intro j
        have hln : (map_multiboot (map_kernel amid ks ke) ms me).last_frame.number =
            amid.last_frame.number := by
          rw [b3, k3]
        rw [map_multiboot_spec]
        rw [map_kernel_spec]
        rw [m4 j]
        rw [hln]
        rw [show frame_is_used
            { bitmap := bm, second_scan := false, next_frame := Frame.containing_address 0,
              last_frame := Frame.containing_address 0 } j =
            frame_is_used
            { bitmap := bm, second_scan := false, next_frame := ⟨0⟩, last_frame := ⟨0⟩ } j
          from rfl]
        constructor
        · rintro (((h | h | h) | h) | h)
          · exact Or.inl h
          · exact Or.inr (Or.inl h)
          · exact Or.inr (Or.inr (Or.inl h))
          · exact Or.inr (Or.inr (Or.inr (Or.inl h)))
          · exact Or.inr (Or.inr (Or.inr (Or.inr h)))
        · rintro (h | h | h | h | h)
          · exact Or.inl (Or.inl (Or.inl h))
          · exact Or.inl (Or.inl (Or.inr (Or.inl h)))
          · exact Or.inl (Or.inl (Or.inr (Or.inr h)))
          · exact Or.inl (Or.inr h)
          · exact Or.inr h

lemma Frame.ext_number {f : Frame} {m : Nat} (h : f.number = m) : f = ⟨m⟩ := by
  cases f
  cases h
  rfl

lemma allocate_frame_hit {a : BitmapFrameAllocator} {g : Nat}
    (hcase : a.second_scan = false ∨ a.next_frame.number ≤ g)
    (hgl : g < a.last_frame.number)
    (hfree : frame_is_used a g = false) :
    ∃ f, (allocate_frame a).1 = some f := by
  rcases h : (allocate_frame a).1 with _ | f
  · exfalso
    obtain ⟨_, _, _, c4, c5⟩ := allocate_frame_none h
    rcases hcase with hs | hg
    · rw [c4 hs g hgl] at hfree
      cases hfree
    · cases hsc : a.second_scan
      · rw [c4 hsc g hgl] at hfree
        cases hfree
      · rw [c5 hsc g hg hgl] at hfree
        cases hfree
  · exact ⟨f, rfl⟩

lemma find_free_frame_in_block_hit {a : BitmapFrameAllocator} {bn g : Nat}
    (hg1 : a.next_frame.number ≤ g) (hg0 : bn * BITS_PER_BLOCK ≤ g)
    (hg2 : g ≤ (last_frame_in_block bn).number)
    (hfree : frame_is_used a g = false) :
    ∃ f, (find_free_frame_in_block a bn).1 = some f := by
  rcases h : (find_free_frame_in_block a bn).1 with _ | f
  · exfalso
    unfold find_free_frame_in_block at h
    by_cases hb : block_is_used a bn = true
    · have hgbn : g / BITS_PER_BLOCK = bn := by
        simp only [last_frame_in_block, BITS_PER_BLOCK] at hg0 hg2 ⊢
        omega
      rw [block_is_used_all_used hb hgbn] at hfree
      cases hfree
    · rw [if_neg hb] at h
      obtain ⟨c1, _⟩ := find_free_frame_loop_none h
      rw [c1 g hg1 hg2] at hfree
      cases hfree
  · exact ⟨f, rfl⟩

lemma find_free_frame_in_block_least {a : BitmapFrameAllocator} {bn : Nat} {f : Frame}
    {m : Nat} (h : (find_free_frame_in_block a bn).1 = some f)
    (hm1 : a.next_frame.number ≤ m)
    (hfree : frame_is_used a m = false)
    (hbelow : ∀ g, a.next_frame.number ≤ g → g < m → frame_is_used a g = true) :
    f = ⟨m⟩ := by
  obtain ⟨s1, s2, s3, s4, _⟩ := find_free_frame_in_block_some h
  refine Frame.ext_number ?_
  rcases Nat.lt_trichotomy f.number m with hc | hc | hc
  · rw [hbelow f.number s1 hc] at s3
    cases s3
  · exact hc
  · rw [s4 m hm1 hc] at hfree
    cases hfree

lemma allocate_frame_step_some {a : BitmapFrameAllocator} {f : Frame}
    (hlt : a.next_frame.number < a.last_frame.number)
    (hs : (find_free_frame_in_block a (get_block_number a.next_frame.number)).1 = some f) :
    (allocate_frame a).1 = some f := by
  rw [allocate_frame.eq_def]
  rw [if_neg (show ¬ a.next_frame.number ≥ a.last_frame.number by omega)]
  simp only [hs, Option.isSome_some, if_true]

lemma allocate_frame_least_first {a : BitmapFrameAllocator} {f : Frame} {m : Nat}
    (h : (allocate_frame a).1 = some f)
    (hm1 : a.next_frame.number ≤ m)
    (hfree : frame_is_used a m = false)
    (hbelow : ∀ g, a.next_frame.number ≤ g → g < m → frame_is_used a g = true)
    (hmlt : m < a.last_frame.number) :
    f = ⟨m⟩ := by
  obtain ⟨e1, _, _, _, _, e6⟩ := allocate_frame_some h
  refine Frame.ext_number ?_
  rcases e6 with ⟨_, hle, hall, _⟩ | ⟨_, _, hall, _⟩
  · rcases Nat.lt_trichotomy f.number m with hc | hc | hc
    · rw [hbelow f.number hle hc] at e1
      cases e1
    · exact hc
    · rw [hall m hm1 hc] at hfree
      cases hfree
  · rw [hall m hm1 hmlt] at hfree
    cases hfree

lemma allocate_frame_least_wrap {a : BitmapFrameAllocator} {f : Frame} {m : Nat}
    (h : (allocate_frame a).1 = some f)
    (hnw : a.last_frame.number ≤ a.next_frame.number)
    (hfree : frame_is_used a m = false)
    (hbelow : ∀ g, g < m → frame_is_used a g = true) :
    f = ⟨m⟩ := by
  obtain ⟨e1, _, _, _, _, e6⟩ := allocate_frame_some h
  refine Frame.ext_number ?_
  rcases e6 with ⟨hlt, _, _, _⟩ | ⟨_, _, _, hall⟩
  · exact absurd hlt (by omega)
  · rcases Nat.lt_trichotomy f.number m with hc | hc | hc
    · rw [hbelow f.number hc] at e1
      cases e1
    · exact hc
    · rw [hall m hc] at hfree
      cases hfree

lemma gap_start_eq {p : MemoryArea} (h : p.base_addr + p.length < U64_MOD) :
    gap_start p = (p.base_addr + p.length) / PAGE_SIZE := by
  unfold gap_start Frame.containing_address
  rw [Nat.mod_eq_of_lt h]

lemma gap_end_eq {p : MemoryArea} (h1 : 1 ≤ p.base_addr) (h2 : p.base_addr < U64_MOD) :
    gap_end p = (p.base_addr - 1) / PAGE_SIZE := by
  unfold gap_end Frame.containing_address
  have hmod : (p.base_addr + U64_MOD - 1) % U64_MOD = p.base_addr - 1 := by
    unfold U64_MOD at h2 ⊢
    omega
  rw [hmod]

lemma max_by_key_fold_mem : ∀ (t : List MemoryArea) (m la : MemoryArea),
    t.foldl
      (fun acc area =>
        match acc with
        | none => some area
        | some mm => if mm.base_addr ≤ area.base_addr then some area else some mm)
      (some m) = some la → la = m ∨ la ∈ t := by
  intro t
  induction t with
  | nil =>
    intro m la h
    simp only [List.foldl_nil, Option.some.injEq] at h
    exact Or.inl h.symm
  | cons y t ih =>
    intro m la h
    simp only [List.foldl_cons] at h
    by_cases hc : m.base_addr ≤ y.base_addr
    · simp only [if_pos hc] at h
      rcases ih y la h with h | h
      · exact Or.inr (h ▸ List.mem_cons_self y t)
      · exact Or.inr (List.mem_cons_of_mem y h)
    · simp only [if_neg hc] at h
      rcases ih m la h with h | h
      · exact Or.inl h
      · exact Or.inr (List.mem_cons_of_mem y h)

lemma max_by_key_base_addr_mem {areas : List MemoryArea} {la : MemoryArea}
    (h : max_by_key_base_addr areas = some la) : la ∈ areas := by
  match areas with
  | [] => cases h
  | x :: t =>
    unfold max_by_key_base_addr at h
    simp only [List.foldl_cons] at h
    rcases max_by_key_fold_mem t x la h with h | h
    · exact h ▸ List.mem_cons_self x t
    · exact List.mem_cons_of_mem x h

/-- C6: after construction with kernel range `[kernel_start, kernel_end]` and
loader-structure range `[multiboot_start, multiboot_end]`, every frame in the
inclusive range `[frame(kernel_start), frame(kernel_end)]` and every frame in
the inclusive range `[frame(multiboot_start), frame(multiboot_end)]` has its
bit set. -/
theorem C6_kernel_and_loader_ranges_reserved (bm : Nat → Nat) (ks ke ms me : Nat)
    (areas : List MemoryArea) (al : BitmapFrameAllocator)
    (h : BitmapFrameAllocator.new bm ks ke ms me areas = some al) :
    (∀ j, ks / PAGE_SIZE ≤ j → j ≤ ke / PAGE_SIZE → frame_is_used al j = true) ∧
    (∀ j, ms / PAGE_SIZE ≤ j → j ≤ me / PAGE_SIZE → frame_is_used al j = true) := by
  obtain ⟨la, _, _, _, _, hchar⟩ := new_spec h
  constructor
  · intro j h1 h2
    exact (hchar j).mpr (Or.inr (Or.inr (Or.inr (Or.inl ⟨h1, h2⟩))))
  · intro j h1 h2
    exact (hchar j).mpr (Or.inr (Or.inr (Or.inr (Or.inr ⟨h1, h2⟩))))

/-- Witness for C6 at a concrete construction: kernel range `[0, 0]` makes
frame 0 reserved. -/
theorem C6_witness :
    ((BitmapFrameAllocator.new (fun _ => 0) 0 0 0 0 [⟨0, 4096⟩]).map
      (fun al => frame_is_used al 0)) = some true := by
  rcases hn : BitmapFrameAllocator.new (fun _ => 0) 0 0 0 0 [⟨0, 4096⟩] with _ | al
  · have hs : (BitmapFrameAllocator.new (fun _ => 0) 0 0 0 0
        ([⟨0, 4096⟩] : List MemoryArea)).isSome = true := by decide
    rw [hn] at hs
    cases hs
  · have h := (C6_kernel_and_loader_ranges_reserved (fun _ => 0) 0 0 0 0
      [⟨0, 4096⟩] al hn).1 0 (by decide) (by decide)
    simp [h]

/-- C4 (amended): after construction from a non-empty memory-region sequence,
`last_frame` is the frame containing `base_addr + length` of the region with
the maximal base address (the last such region in iteration order on ties) —
not of `max(base + length)` over all regions — and that frame's bit is set. -/
theorem C4_last_frame_and_guard (bm : Nat → Nat) (ks ke ms me : Nat)
    (areas : List MemoryArea) (al : BitmapFrameAllocator) (la : MemoryArea)
    (h : BitmapFrameAllocator.new bm ks ke ms me areas = some al)
    (hla : max_by_key_base_addr areas = some la) :
    al.last_frame = Frame.containing_address ((la.base_addr + la.length) % U64_MOD) ∧
    frame_is_used al al.last_frame.number = true := by
  obtain ⟨la2, hla2, h1, _, _, hchar⟩ := new_spec h
  rw [hla] at hla2
  have h12 : la2 = la := (Option.some.inj hla2).symm
  subst h12
  exact ⟨h1, (hchar al.last_frame.number).mpr (Or.inr (Or.inl rfl))⟩

/-- Counterexample to C4 as stated: with regions `[{base 0, length 10000},
{base 4096, length 0}]`, `max(base + length) = 10000`, whose frame is 2, but
the code picks the region with the maximal base address and sets
`last_frame` to frame 1; frame 2's bit is not set. -/
theorem C4_counterexample :
    ((BitmapFrameAllocator.new (fun _ => 0) 0 0 0 0 [⟨0, 10000⟩, ⟨4096, 0⟩]).map
      (fun al => (al.last_frame, frame_is_used al ((0 + 10000) / PAGE_SIZE)))) =
      some (⟨1⟩, false) ∧
    (0 + 10000) / PAGE_SIZE = 2 := by
  constructor
  · decide
  · decide

/-- Witness for C4 at a concrete construction. -/
theorem C4_witness :
    ((BitmapFrameAllocator.new (fun _ => 0) 0 0 0 0 [⟨0, 4096⟩]).map
      (fun al => (al.last_frame, frame_is_used al al.last_frame.number))) =
      some (Frame.containing_address ((0 + 4096) % U64_MOD), true) := by
  rcases hn : BitmapFrameAllocator.new (fun _ => 0) 0 0 0 0 [⟨0, 4096⟩] with _ | al
  · have hs : (BitmapFrameAllocator.new (fun _ => 0) 0 0 0 0
        ([⟨0, 4096⟩] : List MemoryArea)).isSome = true := by decide
    rw [hn] at hs
    cases hs
  · obtain ⟨h1, h2⟩ := C4_last_frame_and_guard (fun _ => 0) 0 0 0 0
      [⟨0, 4096⟩] al ⟨0, 4096⟩ hn (by decide)
    show some (al.last_frame, frame_is_used al al.last_frame.number) =
      some (Frame.containing_address ((0 + 4096) % U64_MOD), true)
    rw [h2, h1]

/-- C5: for a memory map in non-decreasing base order (with well-formed `u64`
values, and positive base addresses after the first region so that
`base - 1` does not underflow), construction reserves exactly the adjacent
gaps, the guard frame, and the kernel and loader ranges; everything else is
left free. -/
theorem C5_gaps_reserved_others_free (bm : Nat → Nat) (ks ke ms me : Nat)
    (areas : List MemoryArea) (al : BitmapFrameAllocator)
    (hz : ∀ w, bm w = 0)
    (_hsorted : List.Chain' (fun a1 a2 => a1.base_addr ≤ a2.base_addr) areas)
    (hbounds : ∀ p ∈ areas, p.base_addr + p.length < U64_MOD)
    (hpos : ∀ p ∈ areas.tail, 1 ≤ p.base_addr)
    (h : BitmapFrameAllocator.new bm ks ke ms me areas = some al) :
    (∀ p ∈ areas.zip areas.tail, ∀ j,
        (p.1.base_addr + p.1.length) / PAGE_SIZE ≤ j →
        j ≤ (p.2.base_addr - 1) / PAGE_SIZE →
        frame_is_used al j = true) ∧
    (∀ j, (∀ p ∈ areas.zip areas.tail,
          ¬((p.1.base_addr + p.1.length) / PAGE_SIZE ≤ j ∧
            j ≤ (p.2.base_addr - 1) / PAGE_SIZE)) →
        j ≠ al.last_frame.number →
        ¬(ks / PAGE_SIZE ≤ j ∧ j ≤ ke / PAGE_SIZE) →
        ¬(ms / PAGE_SIZE ≤ j ∧ j ≤ me / PAGE_SIZE) →
        frame_is_used al j = false) := by
  obtain ⟨la, hla, h1, _, _, hchar⟩ := new_spec h
  have hgseq : ∀ p ∈ areas.zip areas.tail,
      gap_start p.1 = (p.1.base_addr + p.1.length) / PAGE_SIZE ∧
      gap_end p.2 = (p.2.base_addr - 1) / PAGE_SIZE := by
    rintro ⟨x, y⟩ hp
    obtain ⟨hp1, hp2⟩ := List.of_mem_zip hp
    have hmem2 : y ∈ areas := List.mem_of_mem_tail hp2
    refine ⟨gap_start_eq (hbounds x hp1), gap_end_eq (hpos y hp2) ?_⟩
    have := hbounds y hmem2
    show y.base_addr < U64_MOD
    omega
  constructor
  · intro p hp j hj1 hj2
    obtain ⟨hg1, hg2⟩ := hgseq p hp
    exact (hchar j).mpr (Or.inr (Or.inr (Or.inl ⟨p, hp, by omega, by omega⟩)))
  · intro j hnog hng hnk hnm
    cases hu : frame_is_used al j
    · rfl
    · exfalso
      rcases (hchar j).mp hu with h0 | h0 | ⟨p, hp, hp1, hp2⟩ | h0 | h0
      · rw [frame_is_used_of_zero hz j] at h0
        cases h0
      · exact hng h0
      · obtain ⟨hg1, hg2⟩ := hgseq p hp
        exact hnog p hp ⟨by omega, by omega⟩
      · exact hnk h0
      · exact hnm h0

/-- Witness for C5: regions `[0,4096)` and `[8192,12288)` leave a gap that
reserves frame 1, while frame 2 (inside the second usable region) stays
free. -/
theorem C5_witness :
    ((BitmapFrameAllocator.new (fun _ => 0) 0 0 0 0 [⟨0, 4096⟩, ⟨8192, 4096⟩]).map
      (fun al => (frame_is_used al 1, frame_is_used al 2))) = some (true, false) := by
  rcases hn : BitmapFrameAllocator.new (fun _ => 0) 0 0 0 0 [⟨0, 4096⟩, ⟨8192, 4096⟩]
    with _ | al
  · have hs : (BitmapFrameAllocator.new (fun _ => 0) 0 0 0 0
        ([⟨0, 4096⟩, ⟨8192, 4096⟩] : List MemoryArea)).isSome = true := by decide
    rw [hn] at hs
    cases hs
  · obtain ⟨hc1, hc2⟩ := C5_gaps_reserved_others_free (fun _ => 0) 0 0 0 0
      [⟨0, 4096⟩, ⟨8192, 4096⟩] al (fun _ => rfl)
      (List.chain'_cons.mpr ⟨by decide, List.chain'_singleton _⟩)
      (by decide) (by decide) hn
    obtain ⟨la, hla, hlast, _, _, _⟩ := new_spec hn
    have hlaval : la = ⟨8192, 4096⟩ := by
      rw [show max_by_key_base_addr [⟨0, 4096⟩, ⟨8192, 4096⟩] =
        some (⟨8192, 4096⟩ : MemoryArea) from by decide] at hla
      exact (Option.some.inj hla).symm
    subst hlaval
    have hl3 : al.last_frame = ⟨3⟩ := by
      rw [hlast]
      decide
    have hu1 : frame_is_used al 1 = true := by
      refine hc1 (⟨0, 4096⟩, ⟨8192, 4096⟩) (by decide) 1 ?_ ?_
      · decide
      · decide
    have hu2 : frame_is_used al 2 = false := by
      refine hc2 2 ?_ ?_ ?_ ?_
      · intro p hp
        have hp2 : p ∈ [((⟨0, 4096⟩ : MemoryArea), (⟨8192, 4096⟩ : MemoryArea))] := hp
        have hpv := List.mem_singleton.mp hp2
        subst hpv
        decide
      · rw [hl3]
        decide
      · decide
      · decide
    simp [hu1, hu2]

/-- C9: for every frame `f` below `last_frame`, `deallocate_frame` clears
exactly frame `f`'s bit, leaves every other frame's bit unchanged, and leaves
`next_frame`, `last_frame` and `second_scan` unchanged. -/
theorem C9_deallocate_effect (a : BitmapFrameAllocator) (f : Frame)
    (_hf : f.number < a.last_frame.number) :
    frame_is_used (deallocate_frame a f) f.number = false ∧
    (∀ g, g ≠ f.number →
      frame_is_used (deallocate_frame a f) g = frame_is_used a g) ∧
    (deallocate_frame a f).next_frame = a.next_frame ∧
    (deallocate_frame a f).last_frame = a.last_frame ∧
    (deallocate_frame a f).second_scan = a.second_scan := by
  unfold deallocate_frame
  refine ⟨?_, ?_, set_used_next_frame a f.number false,
    set_used_last_frame a f.number false, set_used_second_scan a f.number false⟩
  · rw [frame_is_used_set_used_false]
    simp
  · intro g hg
    rw [frame_is_used_set_used_false]
    simp [hg]

/-- Witness for C9 at a concrete state: word 0 is all-ones, `last_frame = 1`;
deallocating frame 0 clears exactly bit 0. -/
theorem C9_witness :
    (0 : Nat) < 1 ∧
    frame_is_used
      (deallocate_frame
        { bitmap := fun _ => 1, second_scan := false,
          next_frame := ⟨0⟩, last_frame := ⟨1⟩ } ⟨0⟩) 0 = false ∧
    frame_is_used
      (deallocate_frame
        { bitmap := fun _ => 1, second_scan := false,
          next_frame := ⟨0⟩, last_frame := ⟨1⟩ } ⟨0⟩) 1 =
      frame_is_used
        { bitmap := fun _ => 1, second_scan := false,
          next_frame := ⟨0⟩, last_frame := ⟨1⟩ } 1 := by
  refine ⟨by decide, ?_, ?_⟩
  · exact (C9_deallocate_effect
      { bitmap := fun _ => 1, second_scan := false,
        next_frame := ⟨0⟩, last_frame := ⟨1⟩ } ⟨0⟩ (by decide)).1
  · exact (C9_deallocate_effect
      { bitmap := fun _ => 1, second_scan := false,
        next_frame := ⟨0⟩, last_frame := ⟨1⟩ } ⟨0⟩ (by decide)).2.1 1 (by decide)

/-- C3 (amended): provided every region ends strictly below the 4 GiB ceiling
(`base_addr + length < MAX_MEM_SIZE`; a region ending exactly at the ceiling
makes construction compute word index `ARRAY_SIZE`, one past the array),
later regions have positive base addresses, and the kernel and loader ranges
end below the ceiling: every frame construction marks lies in a word index
below `ARRAY_SIZE`, every frame a subsequent `allocate_frame` returns lies in
a word index below `ARRAY_SIZE`, and every frame admissible for
`deallocate_frame` (below `last_frame`) lies in a word index below
`ARRAY_SIZE`. -/
theorem C3_word_indices_in_bounds (bm : Nat → Nat) (ks ke ms me : Nat)
    (areas : List MemoryArea) (al : BitmapFrameAllocator)
    (hz : ∀ w, bm w = 0)
    (hbounds : ∀ p ∈ areas, p.base_addr + p.length < MAX_MEM_SIZE)
    (hpos : ∀ p ∈ areas.tail, 1 ≤ p.base_addr)
    (hke : ke < MAX_MEM_SIZE) (hme : me < MAX_MEM_SIZE)
    (h : BitmapFrameAllocator.new bm ks ke ms me areas = some al) :
    al.last_frame.number < NUM_OF_FRAMES ∧
    (∀ j, frame_is_used al j = true → j / BITS_PER_BLOCK < ARRAY_SIZE) ∧
    (∀ b : BitmapFrameAllocator, b.last_frame.number ≤ NUM_OF_FRAMES →
      ∀ f, (allocate_frame b).1 = some f → f.number / BITS_PER_BLOCK < ARRAY_SIZE) ∧
    (∀ f : Frame, f.number < al.last_frame.number →
      f.number / BITS_PER_BLOCK < ARRAY_SIZE) := by
  obtain ⟨la, hla, hlast, _, _, hchar⟩ := new_spec h
  have hlamem := max_by_key_base_addr_mem hla
  have hlab := hbounds la hlamem
  have hlastlt : al.last_frame.number < NUM_OF_FRAMES := by
    rw [hlast]
    show (la.base_addr + la.length) % U64_MOD / PAGE_SIZE < NUM_OF_FRAMES
    simp only [MAX_MEM_SIZE] at hlab
    simp only [U64_MOD, NUM_OF_FRAMES, MAX_MEM_SIZE, PAGE_SIZE]
    omega
  refine ⟨hlastlt, ?_, ?_, ?_⟩
  · intro j hj
    rcases (hchar j).mp hj with h0 | h0 | ⟨p, hp, hp1, hp2⟩ | ⟨_, h0⟩ | ⟨_, h0⟩
    · rw [frame_is_used_of_zero hz j] at h0
      cases h0
    · subst h0
      simp only [NUM_OF_FRAMES, MAX_MEM_SIZE, PAGE_SIZE] at hlastlt
      simp only [BITS_PER_BLOCK, ARRAY_SIZE, NUM_OF_FRAMES, MAX_MEM_SIZE, PAGE_SIZE]
      omega
    · rcases p with ⟨x, y⟩
      obtain ⟨_, hpy⟩ := List.of_mem_zip hp
      have hymem : y ∈ areas := List.mem_of_mem_tail hpy
      have hyb := hbounds y hymem
      have hypos := hpos y hpy
      rw [gap_end_eq hypos
        (by simp only [U64_MOD]; simp only [MAX_MEM_SIZE] at hyb; omega)] at hp2
      simp only [MAX_MEM_SIZE] at hyb
      simp only [PAGE_SIZE] at hp2
      simp only [BITS_PER_BLOCK, ARRAY_SIZE, NUM_OF_FRAMES, MAX_MEM_SIZE, PAGE_SIZE]
      omega
    · simp only [PAGE_SIZE] at h0
      simp only [MAX_MEM_SIZE] at hke
      simp only [BITS_PER_BLOCK, ARRAY_SIZE, NUM_OF_FRAMES, MAX_MEM_SIZE, PAGE_SIZE]
      omega
    · simp only [PAGE_SIZE] at h0
      simp only [MAX_MEM_SIZE] at hme
      simp only [BITS_PER_BLOCK, ARRAY_SIZE, NUM_OF_FRAMES, MAX_MEM_SIZE, PAGE_SIZE]
      omega
  · intro b hb f hf
    obtain ⟨_, _, _, _, e5, _⟩ := allocate_frame_some hf
    simp only [BITS_PER_BLOCK] at e5
    simp only [NUM_OF_FRAMES, MAX_MEM_SIZE, PAGE_SIZE] at hb
    simp only [BITS_PER_BLOCK, ARRAY_SIZE, NUM_OF_FRAMES, MAX_MEM_SIZE, PAGE_SIZE]
    omega
  · intro f hf
    simp only [NUM_OF_FRAMES, MAX_MEM_SIZE, PAGE_SIZE] at hlastlt
    simp only [BITS_PER_BLOCK, ARRAY_SIZE, NUM_OF_FRAMES, MAX_MEM_SIZE, PAGE_SIZE]
    omega

/-- Counterexample to C3 as stated: a memory map whose single region occupies
exactly the whole 4 GiB (so it lies within the ceiling) makes the
construction compute the guard frame's word index `last_frame / 64 =
ARRAY_SIZE`, which is not `< ARRAY_SIZE` — in the Rust code this bitmap
access is out of bounds, so construction does fail. -/
theorem C3_counterexample :
    ((BitmapFrameAllocator.new (fun _ => 0) 0 0 0 0 [⟨0, 4294967296⟩]).map
      (fun al => al.last_frame.number / BITS_PER_BLOCK)) = some ARRAY_SIZE ∧
    (0 : Nat) + 4294967296 ≤ MAX_MEM_SIZE := by
  constructor
  · decide
  · decide

/-- Witness for C3 at a concrete in-bounds construction. -/
theorem C3_witness :
    ((BitmapFrameAllocator.new (fun _ => 0) 0 0 0 0 [⟨0, 4096⟩]).map
      (fun al => decide (al.last_frame.number < NUM_OF_FRAMES))) = some true := by
  rcases hn : BitmapFrameAllocator.new (fun _ => 0) 0 0 0 0 [⟨0, 4096⟩] with _ | al
  · have hs : (BitmapFrameAllocator.new (fun _ => 0) 0 0 0 0
        ([⟨0, 4096⟩] : List MemoryArea)).isSome = true := by decide
    rw [hn] at hs
    cases hs
  · have h := (C3_word_indices_in_bounds (fun _ => 0) 0 0 0 0 [⟨0, 4096⟩] al
      (fun _ => rfl) (by decide) (by decide) (by decide) (by decide) hn).1
    simp [h]

/-- C1 (amended): if `allocate_frame` returns `some f`, then `f` was free,
its bit is set on return, and `next_frame = f + 1` afterwards; moreover
either `f` is at or after the starting cursor and every frame from the
cursor up to `f` was already reserved, or the call wrapped: every frame from
the cursor up to `last_frame` was reserved and every frame below `f` was
reserved. -/
theorem C1_allocate_returns_first_free (a : BitmapFrameAllocator) (f : Frame)
    (h : (allocate_frame a).1 = some f) :
    frame_is_used a f.number = false ∧
    frame_is_used (allocate_frame a).2 f.number = true ∧
    (allocate_frame a).2.next_frame.number = f.number + 1 ∧
    ((a.next_frame.number ≤ f.number ∧
        ∀ g, a.next_frame.number ≤ g → g < f.number → frame_is_used a g = true) ∨
     ((∀ g, a.next_frame.number ≤ g → g < a.last_frame.number →
        frame_is_used a g = true) ∧
      (∀ g, g < f.number → frame_is_used a g = true))) := by
  obtain ⟨e1, e2, _, e4, _, e6⟩ := allocate_frame_some h
  refine ⟨e1, ?_, e4, ?_⟩
  · rw [frame_is_used_congr e2 f.number, frame_is_used_set_used_true]
    simp
  · rcases e6 with ⟨_, h1, h2, _⟩ | ⟨_, _, h2, h3⟩
    · exact Or.inl ⟨h1, h2⟩
    · exact Or.inr ⟨h2, h3⟩

/-- Counterexample to C1 as stated: in the state with an all-free bitmap,
cursor at frame 5 and `last_frame = 1`, frame 5 is free at the cursor, yet
the call wraps (because the cursor is past `last_frame`) and returns frame 0,
not the lowest free frame at or after the cursor. -/
theorem C1_counterexample :
    (allocate_frame
      { bitmap := fun _ => 0, second_scan := false,
        next_frame := ⟨5⟩, last_frame := ⟨1⟩ }).1 = some ⟨0⟩ ∧
    frame_is_used
      { bitmap := fun _ => 0, second_scan := false,
        next_frame := ⟨5⟩, last_frame := ⟨1⟩ } 5 = false ∧
    (⟨0⟩ : Frame).number ≠ 5 := by
  obtain ⟨f, hf⟩ := allocate_frame_hit
    (a := { bitmap := fun _ => 0, second_scan := false,
            next_frame := ⟨5⟩, last_frame := ⟨1⟩ }) (g := 0)
    (Or.inl rfl) (by decide) (by decide)
  have hfv : f = ⟨0⟩ := allocate_frame_least_wrap hf (by decide) (by decide)
    (fun g hg => absurd hg (Nat.not_lt_zero g))
  subst hfv
  exact ⟨hf, by decide, by decide⟩

/-- Witness for C1 at a concrete state: all-free bitmap, cursor 0,
`last_frame = 1`; the call returns frame 0. -/
theorem C1_witness :
    frame_is_used
      { bitmap := fun _ => 0, second_scan := false,
        next_frame := ⟨0⟩, last_frame := ⟨1⟩ } 0 = false ∧
    frame_is_used
      (allocate_frame
        { bitmap := fun _ => 0, second_scan := false,
          next_frame := ⟨0⟩, last_frame := ⟨1⟩ }).2 0 = true ∧
    (allocate_frame
      { bitmap := fun _ => 0, second_scan := false,
        next_frame := ⟨0⟩, last_frame := ⟨1⟩ }).2.next_frame.number = 1 := by
  obtain ⟨f, hf⟩ := allocate_frame_hit
    (a := { bitmap := fun _ => 0, second_scan := false,
            next_frame := ⟨0⟩, last_frame := ⟨1⟩ }) (g := 0)
    (Or.inl rfl) (by decide) (by decide)
  have hfv : f = ⟨0⟩ := allocate_frame_least_first hf (by decide) (by decide)
    (fun g _ hg2 => absurd hg2 (Nat.not_lt_zero g)) (by decide)
  subst hfv
  obtain ⟨t1, t2, t3, _⟩ := C1_allocate_returns_first_free
    { bitmap := fun _ => 0, second_scan := false,
      next_frame := ⟨0⟩, last_frame := ⟨1⟩ } ⟨0⟩ hf
  exact ⟨t1, t2, t3⟩

/-- C2 (code bug): from the allocator constructed with the single region
`[0, 4096)` (so `last_frame = 1`) and kernel range `[0, 8191]` (reserving
frames 0 and 1), the first `allocate_frame` call returns frame 2, which is
not below `last_frame` — the within-block scan runs to the end of the block
containing the cursor without checking `last_frame`. -/
theorem C2_failing_input_eval :
    ((BitmapFrameAllocator.new (fun _ => 0) 0 8191 0 0 [⟨0, 4096⟩]).map
      (fun al => ((allocate_frame al).1, al.last_frame.number))) =
      some (some ⟨2⟩, 1) ∧
    ¬ ((2 : Nat) < 1) := by
  refine ⟨?_, by decide⟩
  rcases hn : BitmapFrameAllocator.new (fun _ => 0) 0 8191 0 0 [⟨0, 4096⟩] with _ | al
  · have hs : (BitmapFrameAllocator.new (fun _ => 0) 0 8191 0 0
        ([⟨0, 4096⟩] : List MemoryArea)).isSome = true := by decide
    rw [hn] at hs
    cases hs
  · obtain ⟨la, hla, hlast, hnext, _, hchar⟩ := new_spec hn
    have hlav : la = ⟨0, 4096⟩ := by
      rw [show max_by_key_base_addr [(⟨0, 4096⟩ : MemoryArea)] =
        some (⟨0, 4096⟩ : MemoryArea) from by decide] at hla
      exact (Option.some.inj hla).symm
    subst hlav
    have hl1 : al.last_frame = ⟨1⟩ := by
      rw [hlast]
      decide
    have hl1n : al.last_frame.number = 1 := by rw [hl1]
    have hn0 : al.next_frame.number = 0 := by rw [hnext]
    have hu0 : frame_is_used al 0 = true :=
      (hchar 0).mpr (Or.inr (Or.inr (Or.inr (Or.inl ⟨by decide, by decide⟩))))
    have hu1 : frame_is_used al 1 = true :=
      (hchar 1).mpr (Or.inr (Or.inr (Or.inr (Or.inl ⟨by decide, by decide⟩))))
    have hu2 : frame_is_used al 2 = false := by
      cases hu : frame_is_used al 2
      · rfl
      · exfalso
        rcases (hchar 2).mp hu with h0 | h0 | ⟨p, hp, _, _⟩ | ⟨_, h0⟩ | ⟨_, h0⟩
        · rw [frame_is_used_of_zero (fun _ => rfl) 2] at h0
          cases h0
        · rw [hl1n] at h0
          omega
        · have hp2 : p ∈ ([] : List (MemoryArea × MemoryArea)) := hp
          simp at hp2
        · simp only [PAGE_SIZE] at h0
          omega
        · simp only [PAGE_SIZE] at h0
          omega
    obtain ⟨f, hf⟩ := @find_free_frame_in_block_hit al
      (get_block_number al.next_frame.number) 2
      (by omega) (by rw [hn0]; decide) (by rw [hn0]; decide) hu2
    have hfv : f = ⟨2⟩ := by
      refine find_free_frame_in_block_least hf (by omega) hu2 ?_
      intro g _ hg2
      interval_cases g
      · exact hu0
      · exact hu1
    subst hfv
    have halloc : (allocate_frame al).1 = some ⟨2⟩ :=
      allocate_frame_step_some (by omega) hf
    show some ((allocate_frame al).1, al.last_frame.number) = some (some ⟨2⟩, 1)
    rw [halloc, hl1n]

/-- C7 (amended): a `none` result always leaves `second_scan` reset to false
and the bitmap unchanged; and when the call starts with `second_scan = false`
(a fresh first pass), `none` is returned only when both passes find nothing —
every frame below `last_frame` is reserved.  (A call that starts with
`second_scan` still true from a previous successful second-pass allocation
may return `none` after only the remaining pass.) -/
theorem C7_none_behaviour (a : BitmapFrameAllocator) :
    ((allocate_frame a).1 = none →
      (allocate_frame a).2.second_scan = false ∧
      (allocate_frame a).2.bitmap = a.bitmap) ∧
    (a.second_scan = false → (allocate_frame a).1 = none →
      ∀ g, g < a.last_frame.number → frame_is_used a g = true) := by
  constructor
  · intro h
    obtain ⟨c1, c2, _, _, _⟩ := allocate_frame_none h
    exact ⟨c2, c1⟩
  · intro hs h
    obtain ⟨_, _, _, c4, _⟩ := allocate_frame_none h
    exact c4 hs

/-- Counterexample to C7 as stated: a state left with `second_scan = true`
(as a successful second-pass allocation leaves it) and cursor at
`last_frame` returns `none` immediately even though frame 0 below
`last_frame` is free — a wraparound pass would have found it. -/
theorem C7_counterexample :
    (allocate_frame
      { bitmap := fun _ => 0, second_scan := true,
        next_frame := ⟨1⟩, last_frame := ⟨1⟩ }).1 = none ∧
    frame_is_used
      { bitmap := fun _ => 0, second_scan := true,
        next_frame := ⟨1⟩, last_frame := ⟨1⟩ } 0 = false ∧
    (0 : Nat) <
      ({ bitmap := fun _ => 0, second_scan := true,
         next_frame := ⟨1⟩, last_frame := ⟨1⟩ } : BitmapFrameAllocator).last_frame.number := by
  refine ⟨?_, by decide, by decide⟩
  rw [allocate_frame.eq_def]
  simp

/-- Witness for C7 at a concrete state: every frame of the only block below
`last_frame = 1` is reserved, so the call returns `none`, resetting
`second_scan` and leaving the bitmap unchanged. -/
theorem C7_witness :
    (allocate_frame
      { bitmap := fun _ => USIZE_MAX, second_scan := false,
        next_frame := ⟨0⟩, last_frame := ⟨1⟩ }).2.second_scan = false ∧
    (allocate_frame
      { bitmap := fun _ => USIZE_MAX, second_scan := false,
        next_frame := ⟨0⟩, last_frame := ⟨1⟩ }).2.bitmap =
      ({ bitmap := fun _ => USIZE_MAX, second_scan := false,
         next_frame := ⟨0⟩, last_frame := ⟨1⟩ } : BitmapFrameAllocator).bitmap ∧
    frame_is_used
      { bitmap := fun _ => USIZE_MAX, second_scan := false,
        next_frame := ⟨0⟩, last_frame := ⟨1⟩ } 0 = true := by
  have hnone : (allocate_frame
      { bitmap := fun _ => USIZE_MAX, second_scan := false,
        next_frame := ⟨0⟩, last_frame := ⟨1⟩ }).1 = none :=
    allocate_frame_exhaust (by decide)
  obtain ⟨c1, c2⟩ := (C7_none_behaviour
    { bitmap := fun _ => USIZE_MAX, second_scan := false,
      next_frame := ⟨0⟩, last_frame := ⟨1⟩ }).1 hnone
  exact ⟨c1, c2, by decide⟩

/-- C8 (amended): within a pass each outer-loop iteration strictly increases
`next_frame` — a `none` result of the within-block search leaves the cursor
at the first frame of the next block; at most one wraparound occurs — a call
entered with `second_scan` set and an exhausted cursor returns `none` at
once; and an allocator whose frames up to the block boundary at or above
`last_frame` are all reserved returns `none` on the first call rather than
scanning forever.  (With only `[0, last_frame)` reserved the call may instead
return a trailing frame of the final block, at or beyond `last_frame`.) -/
theorem C8_termination_progress :
    (∀ a : BitmapFrameAllocator,
      (find_free_frame_in_block a (get_block_number a.next_frame.number)).1 = none →
      (find_free_frame_in_block a
          (get_block_number a.next_frame.number)).2.next_frame.number =
        (get_block_number a.next_frame.number + 1) * BITS_PER_BLOCK ∧
      a.next_frame.number <
        (find_free_frame_in_block a
          (get_block_number a.next_frame.number)).2.next_frame.number) ∧
    (∀ a : BitmapFrameAllocator, a.second_scan = true →
      a.last_frame.number ≤ a.next_frame.number →
      (allocate_frame a).1 = none) ∧
    (∀ a : BitmapFrameAllocator,
      (∀ g, g < BITS_PER_BLOCK *
          ((a.last_frame.number + BITS_PER_BLOCK - 1) / BITS_PER_BLOCK) →
        frame_is_used a g = true) →
      (allocate_frame a).1 = none) := by
  refine ⟨?_, ?_, ?_⟩
  · intro a hnone
    obtain ⟨_, _, _, _, d5, d6⟩ := find_free_frame_in_block_none rfl hnone
    constructor
    · rw [d5]
      simp only [last_frame_in_block, BITS_PER_BLOCK]
      omega
    · rw [d5]
      omega
  · intro a hs hge
    rw [allocate_frame.eq_def]
    rw [if_pos (show a.next_frame.number ≥ a.last_frame.number from hge), if_pos hs]
  · intro a hall
    exact allocate_frame_exhaust hall

/-- Counterexample to C8's exhaustion sentence as stated: in this state the
entire range `[0, last_frame) = {0}` is pre-marked reserved, yet the first
call returns `some` (the out-of-range trailing frame 2 of the cursor's
block) rather than `none`. -/
theorem C8_counterexample :
    frame_is_used
      { bitmap := fun w => if w = 0 then 3 else 0, second_scan := false,
        next_frame := ⟨0⟩, last_frame := ⟨1⟩ } 0 = true ∧
    ({ bitmap := fun w => if w = 0 then 3 else 0, second_scan := false,
       next_frame := ⟨0⟩, last_frame := ⟨1⟩ } : BitmapFrameAllocator).last_frame.number
      = 1 ∧
    (allocate_frame
      { bitmap := fun w => if w = 0 then 3 else 0, second_scan := false,
        next_frame := ⟨0⟩, last_frame := ⟨1⟩ }).1 = some ⟨2⟩ := by
  refine ⟨by decide, by decide, ?_⟩
  obtain ⟨f, hf⟩ := @find_free_frame_in_block_hit
    { bitmap := fun w => if w = 0 then 3 else 0, second_scan := false,
      next_frame := ⟨0⟩, last_frame := ⟨1⟩ }
    (get_block_number
      ({ bitmap := fun w => if w = 0 then 3 else 0, second_scan := false,
         next_frame := ⟨0⟩, last_frame := ⟨1⟩ } : BitmapFrameAllocator).next_frame.number)
    2 (by decide) (by decide) (by decide) (by decide)
  have hfv : f = ⟨2⟩ := by
    refine find_free_frame_in_block_least hf (by decide) (by decide) ?_
    intro g hg1 hg2
    interval_cases g
    · decide
    · decide
  subst hfv
  exact allocate_frame_step_some (by decide) hf

/-- Witness for C8 at concrete states: a full block advances the cursor to
the next block boundary; an exhausted second scan returns `none` at once;
and a fully reserved allocator returns `none` on the first call. -/
theorem C8_witness :
    (find_free_frame_in_block
      { bitmap := fun _ => USIZE_MAX, second_scan := false,
        next_frame := ⟨0⟩, last_frame := ⟨70⟩ }
      (get_block_number
        ({ bitmap := fun _ => USIZE_MAX, second_scan := false,
           next_frame := ⟨0⟩, last_frame := ⟨70⟩ } :
          BitmapFrameAllocator).next_frame.number)).2.next_frame.number =
      (get_block_number
        ({ bitmap := fun _ => USIZE_MAX, second_scan := false,
           next_frame := ⟨0⟩, last_frame := ⟨70⟩ } :
          BitmapFrameAllocator).next_frame.number + 1) * BITS_PER_BLOCK ∧
    (allocate_frame
      { bitmap := fun _ => 0, second_scan := true,
        next_frame := ⟨1⟩, last_frame := ⟨1⟩ }).1 = none ∧
    (allocate_frame
      { bitmap := fun _ => USIZE_MAX, second_scan := false,
        next_frame := ⟨0⟩, last_frame := ⟨1⟩ }).1 = none := by
  refine ⟨?_, ?_, ?_⟩
  · exact (C8_termination_progress.1
      { bitmap := fun _ => USIZE_MAX, second_scan := false,
        next_frame := ⟨0⟩, last_frame := ⟨70⟩ } (by decide)).1
  · exact C8_termination_progress.2.1
      { bitmap := fun _ => 0, second_scan := true,
        next_frame := ⟨1⟩, last_frame := ⟨1⟩ } rfl (by decide)
  · exact C8_termination_progress.2.2
      { bitmap := fun _ => USIZE_MAX, second_scan := false,
        next_frame := ⟨0⟩, last_frame := ⟨1⟩ } (by decide)

/-- C10 (amended): two consecutive `allocate_frame` calls that both return
`some` return strictly increasing frame indices, and every frame strictly
between them was reserved when passed over — provided some frame strictly
between the first result and `last_frame` is still free when the second call
starts; without that proviso the second call may wrap to frame 0 and return
a lower index. -/
theorem C10_monotonic_progress (a : BitmapFrameAllocator) (f1 f2 : Frame)
    (h1 : (allocate_frame a).1 = some f1)
    (hfree : ∃ g, f1.number < g ∧ g < a.last_frame.number ∧
      frame_is_used (allocate_frame a).2 g = false)
    (h2 : (allocate_frame (allocate_frame a).2).1 = some f2) :
    f1.number < f2.number ∧
    (∀ g, f1.number < g → g < f2.number →
      frame_is_used (allocate_frame a).2 g = true) := by
  obtain ⟨_, _, e3, e4, _, _⟩ := allocate_frame_some h1
  obtain ⟨s1, _, _, _, _, s6⟩ := allocate_frame_some h2
  obtain ⟨g0, hg1, hg2, hg3⟩ := hfree
  have hlastn : (allocate_frame a).2.last_frame.number = a.last_frame.number := by
    rw [e3]
  rcases s6 with ⟨_, hle, hall, _⟩ | ⟨_, _, hall, _⟩
  · constructor
    · omega
    · intro g hga hgb
      exact hall g (by omega) hgb
  · exfalso
    rw [hall g0 (by omega) (by omega)] at hg3
    cases hg3

/-- Counterexample to C10 as stated: first call returns frame 64; the second
call starts with its cursor at `last_frame = 65`, wraps to 0, and returns
frame 0 < 64 — consecutive results are not strictly increasing. -/
theorem C10_counterexample :
    (allocate_frame
      { bitmap := fun w => if w = 0 then 18446744073709551614 else 0,
        second_scan := false, next_frame := ⟨64⟩, last_frame := ⟨65⟩ }).1 =
      some ⟨64⟩ ∧
    (allocate_frame
      (allocate_frame
        { bitmap := fun w => if w = 0 then 18446744073709551614 else 0,
          second_scan := false, next_frame := ⟨64⟩, last_frame := ⟨65⟩ }).2).1 =
      some ⟨0⟩ ∧
    ¬ ((64 : Nat) < 0) := by
  obtain ⟨f1, hf1⟩ := allocate_frame_hit
    (a := { bitmap := fun w => if w = 0 then 18446744073709551614 else 0,
            second_scan := false, next_frame := ⟨64⟩, last_frame := ⟨65⟩ })
    (g := 64) (Or.inl rfl) (by decide) (by decide)
  have hf1v : f1 = ⟨64⟩ := allocate_frame_least_first hf1 (by decide) (by decide)
    (fun g hg1 hg2 => absurd (Nat.lt_of_le_of_lt hg1 hg2) (by decide)) (by decide)
  subst hf1v
  obtain ⟨_, e2, e3, e4, _, e6⟩ := allocate_frame_some hf1
  have e4n : (allocate_frame
      { bitmap := fun w => if w = 0 then 18446744073709551614 else 0,
        second_scan := false, next_frame := ⟨64⟩, last_frame := ⟨65⟩ }).2.next_frame.number
      = 65 := by
    rw [e4]
  have hsec : (allocate_frame
      { bitmap := fun w => if w = 0 then 18446744073709551614 else 0,
        second_scan := false, next_frame := ⟨64⟩, last_frame := ⟨65⟩ }).2.second_scan
      = false := by
    rcases e6 with ⟨_, _, _, hsec⟩ | ⟨_, _, hall, _⟩
    · exact hsec
    · exact absurd (hall 64 (by decide) (by decide)) (by decide)
  have hlastn : (allocate_frame
      { bitmap := fun w => if w = 0 then 18446744073709551614 else 0,
        second_scan := false, next_frame := ⟨64⟩, last_frame := ⟨65⟩ }).2.last_frame.number
      = 65 := by
    rw [e3]
  have hfree0 : frame_is_used
      (allocate_frame
        { bitmap := fun w => if w = 0 then 18446744073709551614 else 0,
          second_scan := false, next_frame := ⟨64⟩, last_frame := ⟨65⟩ }).2 0 = false := by
    rw [frame_is_used_congr e2 0, frame_is_used_set_used_true]
    decide
  obtain ⟨f2, hf2⟩ := allocate_frame_hit (g := 0) (Or.inl hsec) (by omega) hfree0
  have hf2v : f2 = ⟨0⟩ := allocate_frame_least_wrap hf2 (by omega) hfree0
    (fun g hg => absurd hg (Nat.not_lt_zero g))
  subst hf2v
  exact ⟨hf1, hf2, by decide⟩

/-- Witness for C10 at a concrete state: all-free bitmap with
`last_frame = 2`; the two calls return frames 0 and 1. -/
theorem C10_witness :
    (allocate_frame
      { bitmap := fun _ => 0, second_scan := false,
        next_frame := ⟨0⟩, last_frame := ⟨2⟩ }).1 = some ⟨0⟩ ∧
    (allocate_frame
      (allocate_frame
        { bitmap := fun _ => 0, second_scan := false,
          next_frame := ⟨0⟩, last_frame := ⟨2⟩ }).2).1 = some ⟨1⟩ ∧
    (⟨0⟩ : Frame).number < (⟨1⟩ : Frame).number := by
  obtain ⟨f1, hf1⟩ := allocate_frame_hit
    (a := { bitmap := fun _ => 0, second_scan := false,
            next_frame := ⟨0⟩, last_frame := ⟨2⟩ })
    (g := 0) (Or.inl rfl) (by decide) (by decide)
  have hf1v : f1 = ⟨0⟩ := allocate_frame_least_first hf1 (by decide) (by decide)
    (fun g _ hg2 => absurd hg2 (Nat.not_lt_zero g)) (by decide)
  subst hf1v
  obtain ⟨_, e2, e3, e4, _, _⟩ := allocate_frame_some hf1
  have e4n : (allocate_frame
      { bitmap := fun _ => 0, second_scan := false,
        next_frame := ⟨0⟩, last_frame := ⟨2⟩ }).2.next_frame.number = 1 := by
    rw [e4]
  have hlastn : (allocate_frame
      { bitmap := fun _ => 0, second_scan := false,
        next_frame := ⟨0⟩, last_frame := ⟨2⟩ }).2.last_frame.number = 2 := by
    rw [e3]
  have hfree1 : frame_is_used
      (allocate_frame
        { bitmap := fun _ => 0, second_scan := false,
          next_frame := ⟨0⟩, last_frame := ⟨2⟩ }).2 1 = false := by
    rw [frame_is_used_congr e2 1, frame_is_used_set_used_true]
    decide
  obtain ⟨f2, hf2⟩ := allocate_frame_hit (g := 1) (Or.inr (by omega)) (by omega) hfree1
  have hf2v : f2 = ⟨1⟩ := by
    refine allocate_frame_least_first hf2 (by omega) hfree1 ?_ (by omega)
    intro g hg1 hg2
    omega
  subst hf2v
  have := (C10_monotonic_progress
    { bitmap := fun _ => 0, second_scan := false,
      next_frame := ⟨0⟩, last_frame := ⟨2⟩ } ⟨0⟩ ⟨1⟩ hf1
    ⟨1, by decide, by decide, hfree1⟩ hf2).1
  exact ⟨hf1, hf2, this⟩
